import Mathlib

/-!
Verification of the Bitwarden-export formatter (`src/main.py`) against its
natural-language specification.

The development shallowly embeds the Python source:

* JSON values (as produced by `json.load`) are the inductive type `Json`;
  JSON numbers are modelled as integers (no claim involves a non-integral
  number).
* Python code that can raise is embedded in `Except PyErr`; the embedding
  raises exactly where the Python source would (attribute access on a
  non-dict, iterating a non-iterable, unhashable dict keys, string methods
  on non-strings, ...).
* Machine-level / environment-level facts (filesystem existence, the
  platform string, environment variables, subprocess execution) are
  parameters gathered in explicit environment records; subprocess
  invocations are additionally recorded in an event trace so that ordering
  claims ("never runs a subprocess") are statable.
-/

set_option maxRecDepth 10000

/-- A JSON value as produced by Python's `json.load`.  Object fields keep the
insertion order of the source text; duplicate keys are resolved by the lookup
functions below (last binding wins, as in CPython). -/
inductive Json where
  | null : Json
  | bool : Bool → Json
  | num : Int → Json
  | str : String → Json
  | arr : List Json → Json
  | obj : List (String × Json) → Json
deriving Repr

/-- Errors the embedded Python fragments can raise.  The constructors mirror
the exception classes actually reachable in `src/main.py`. -/
inductive PyErr where
  | attrError : PyErr
  | typeError : PyErr
  | fileNotFound : String → PyErr
  | runtimeError : String → PyErr
deriving Repr, DecidableEq

/-- Python truthiness (`bool(x)`) restricted to JSON values: `None`, `False`,
`0`, `""`, `[]` and `{}` are falsy, everything else is truthy
(`src/main.py` uses `or`-defaulting and `if value:` tests throughout). -/
def truthy : Json → Bool
  | Json.null => false
  | Json.bool b => b
  | Json.num n => n != 0
  | Json.str s => s != ""
  | Json.arr l => !l.isEmpty
  | Json.obj l => !l.isEmpty

/-- `x.get(k)` on a Python dict with string keys coming from `json.load`:
returns `None` when the key is absent; on duplicate keys the last binding
wins (CPython keeps the last occurrence when loading JSON). -/
def jlookup (kvs : List (String × Json)) (k : String) : Json :=
  match kvs.reverse.find? (fun p => p.1 == k) with
  | some p => p.2
  | none => Json.null

/-- `value.get(k)` (`dict.get` with default `None`); raises `AttributeError`
when `value` is not a dict, as Python does. -/
def jget (v : Json) (k : String) : Except PyErr Json :=
  match v with
  | Json.obj kvs => Except.ok (jlookup kvs k)
  | _ => Except.error PyErr.attrError

/-- `value.get(k, d)` (`dict.get` with an explicit default). -/
def jgetD (v : Json) (k : String) (d : Json) : Except PyErr Json :=
  match v with
  | Json.obj kvs =>
    match kvs.reverse.find? (fun p => p.1 == k) with
    | some p => Except.ok p.2
    | none => Except.ok d
  | _ => Except.error PyErr.attrError

/-- Fuel-indexed single pass of `str.replace`; the fuel is structural so the
kernel can evaluate concrete instances.  Each step consumes at least one
character, so `l.length` fuel always suffices. -/
def pyReplaceF (pat rep : List Char) : Nat → List Char → List Char
  | _, [] => if pat.isEmpty then rep else []
  | 0, l => l
  | f + 1, c :: rest =>
    if pat.isPrefixOf (c :: rest) && !pat.isEmpty then
      rep ++ pyReplaceF pat rep f ((c :: rest).drop pat.length)
    else
      (if pat.isEmpty then rep else []) ++ c :: pyReplaceF pat rep f rest

/-- `str.replace(old, new)` on explicit character lists: replaces every
non-overlapping occurrence, scanning left to right, and does not rescan the
replacement text.  The empty pattern inserts `rep` between all characters
and at both ends, as CPython does. -/
def pyReplace (pat rep l : List Char) : List Char :=
  pyReplaceF pat rep l.length l

theorem pyReplaceF_irrel (pat rep : List Char) :
    ∀ f g l, l.length ≤ f → l.length ≤ g →
      pyReplaceF pat rep f l = pyReplaceF pat rep g l := by
  intro f
  induction f with
  | zero =>
    intro g l hf _
    have : l = [] := by
      cases l with
      | nil => rfl
      | cons c r => simp at hf
    subst this
    cases g <;> rfl
  | succ f ih =>
    intro g l hf hg
    cases l with
    | nil => cases g <;> rfl
    | cons c rest =>
      cases g with
      | zero => simp at hg
      | succ g =>
        have e1 : pyReplaceF pat rep (f + 1) (c :: rest) =
            if pat.isPrefixOf (c :: rest) && !pat.isEmpty then
              rep ++ pyReplaceF pat rep f ((c :: rest).drop pat.length)
            else (if pat.isEmpty then rep else []) ++
              c :: pyReplaceF pat rep f rest := rfl
        have e2 : pyReplaceF pat rep (g + 1) (c :: rest) =
            if pat.isPrefixOf (c :: rest) && !pat.isEmpty then
              rep ++ pyReplaceF pat rep g ((c :: rest).drop pat.length)
            else (if pat.isEmpty then rep else []) ++
              c :: pyReplaceF pat rep g rest := rfl
        rw [e1, e2]
        by_cases hpre : (pat.isPrefixOf (c :: rest) && !pat.isEmpty) = true
        · have hplen : 0 < pat.length := by
            cases pat with
            | nil => simp at hpre
            | cons a t => simp
          have hlen : ((c :: rest).drop pat.length).length ≤ f := by
            simp only [List.length_drop]
            simp at hf ⊢
            omega
          have hlen2 : ((c :: rest).drop pat.length).length ≤ g := by
            simp only [List.length_drop]
            simp at hg ⊢
            omega
          simp only [hpre, if_true]
          rw [ih g _ hlen hlen2]
        · have hlen : rest.length ≤ f := by simp at hf; omega
          have hlen2 : rest.length ≤ g := by simp at hg; omega
          simp only [hpre, if_false]
          rw [ih g _ hlen hlen2]
          simp

theorem pyReplace_nil (pat rep : List Char) :
    pyReplace pat rep [] = if pat.isEmpty then rep else [] := rfl

/-- The one-step unfolding of `pyReplace` on a non-empty input. -/
theorem pyReplace_cons (pat rep : List Char) (c : Char) (rest : List Char) :
    pyReplace pat rep (c :: rest) =
      if pat.isPrefixOf (c :: rest) && !pat.isEmpty then
        rep ++ pyReplace pat rep ((c :: rest).drop pat.length)
      else
        (if pat.isEmpty then rep else []) ++ c :: pyReplace pat rep rest := by
  show pyReplaceF pat rep (rest.length + 1) (c :: rest) = _
  show (if pat.isPrefixOf (c :: rest) && !pat.isEmpty then
      rep ++ pyReplaceF pat rep rest.length ((c :: rest).drop pat.length)
    else (if pat.isEmpty then rep else []) ++
      c :: pyReplaceF pat rep rest.length rest) = _
  by_cases hpre : (pat.isPrefixOf (c :: rest) && !pat.isEmpty) = true
  · have hplen : 0 < pat.length := by
      cases pat with
      | nil => simp at hpre
      | cons a t => simp
    simp only [hpre, if_true]
    rw [pyReplaceF_irrel pat rep rest.length ((c :: rest).drop pat.length).length
      ((c :: rest).drop pat.length)]
    · rfl
    · simp only [List.length_drop]
      simp
      omega
    · exact Nat.le_refl _
  · simp only [hpre, if_false]
    rfl

/-- `s.replace(old, new)` on strings. -/
def pyReplaceS (s pat rep : String) : String :=
  String.mk (pyReplace pat.data rep.data s.data)

/-- `html.escape(s)` (with the default `quote=True`): the five sequential
single-character replacements performed by the standard library, in its
order (`&` first, then `<`, `>`, `"`, `'`). -/
def escape (s : String) : String :=
  pyReplaceS (pyReplaceS (pyReplaceS (pyReplaceS (pyReplaceS s "&" "&amp;")
    "<" "&lt;") ">" "&gt;") "\"" "&quot;") "'" "&#x27;"

/-- Python `==` restricted to the hashable JSON scalars that can appear as
dict keys.  Mirrors CPython's numeric cross-type equality: `True == 1` and
`False == 0`.  Lists and dicts are unhashable and never reach a key
comparison (the embedding raises `TypeError` first). -/
def pyKeyEq : Json → Json → Bool
  | Json.null, Json.null => true
  | Json.bool a, Json.bool b => a == b
  | Json.bool a, Json.num n => (if a then (1 : Int) else 0) == n
  | Json.num n, Json.bool b => n == (if b then (1 : Int) else 0)
  | Json.num a, Json.num b => a == b
  | Json.str a, Json.str b => a == b
  | _, _ => false

/-- `hash(x)` succeeds: lists and dicts are unhashable in Python. -/
def hashable : Json → Bool
  | Json.arr _ => false
  | Json.obj _ => false
  | _ => true

/-- Lookup in a Python dict whose keys are arbitrary (hashable) JSON values,
e.g. the folder-id map of `collect_accounts`; `.get` returns `None` on a
miss, and the last binding wins. -/
def dictLookup (kvs : List (Json × Json)) (k : Json) : Json :=
  match kvs.reverse.find? (fun p => pyKeyEq p.1 k) with
  | some p => p.2
  | none => Json.null

/-- `for x in v`: lists yield their elements, strings their characters (as
one-character strings), dicts their keys; other values raise `TypeError`. -/
def pyIter (v : Json) : Except PyErr (List Json) :=
  match v with
  | Json.arr xs => Except.ok xs
  | Json.str s => Except.ok (s.data.map (fun c => Json.str (String.mk [c])))
  | Json.obj kvs => Except.ok (kvs.map (fun p => Json.str p.1))
  | _ => Except.error PyErr.typeError

mutual
/-- Python `str(v)` on JSON values (used by the f-string
`f"{name}: {value}"` in `collect_accounts`, src/main.py:98). -/
def pyStr : Json → String
  | Json.null => "None"
  | Json.bool b => if b then "True" else "False"
  | Json.num n => toString n
  | Json.str s => s
  | Json.arr xs => "[" ++ pyStrList xs ++ "]"
  | Json.obj kvs => "\x7b" ++ pyStrPairs kvs ++ "\x7d"
/-- Python `repr(v)` for container elements; the quoting of strings is
simplified to single quotes without escaping (no claim inspects it). -/
def pyRepr : Json → String
  | Json.null => "None"
  | Json.bool b => if b then "True" else "False"
  | Json.num n => toString n
  | Json.str s => "'" ++ s ++ "'"
  | Json.arr xs => "[" ++ pyStrList xs ++ "]"
  | Json.obj kvs => "\x7b" ++ pyStrPairs kvs ++ "\x7d"
def pyStrList : List Json → String
  | [] => ""
  | [x] => pyRepr x
  | x :: y :: xs => pyRepr x ++ ", " ++ pyStrList (y :: xs)
def pyStrPairs : List (String × Json) → String
  | [] => ""
  | [(k, v)] => "'" ++ k ++ "': " ++ pyRepr v
  | (k, v) :: y :: xs => "'" ++ k ++ "': " ++ pyRepr v ++ ", " ++ pyStrPairs (y :: xs)
end

/-- Fields of a parsed timestamp (`datetime.fromisoformat` result); the
timezone offset, if any, is validated but not stored: `strftime` prints the
stored wall-clock fields without any conversion. -/
structure PyDateTime where
  year : Nat
  month : Nat
  day : Nat
  hour : Nat
  minute : Nat
  second : Nat
deriving Repr, DecidableEq

def isLeap (y : Nat) : Bool := (y % 4 == 0 && y % 100 != 0) || y % 400 == 0

def daysInMonth (y m : Nat) : Nat :=
  if m == 2 then (if isLeap y then 29 else 28)
  else if m == 4 || m == 6 || m == 9 || m == 11 then 30
  else 31

/-- Numeric value of a two-digit string fragment. -/
def d2 (a b : Char) : Nat := (a.toNat - 48) * 10 + (b.toNat - 48)

/-- Validate a trailing UTC offset `±HH:MM[:SS]` (or `±HHMM`, or `±HH`);
`datetime.fromisoformat` requires the offset to be a valid time-of-day-like
quantity but the parsed value never influences `strftime` output. -/
def parseTzOnly (l : List Char) : Option Unit :=
  match l with
  | [] => some ()
  | sign :: h1 :: h2 :: rest =>
    if (sign == '+' || sign == '-') && h1.isDigit && h2.isDigit && d2 h1 h2 ≤ 23 then
      match rest with
      | [] => some ()
      | ':' :: m1 :: m2 :: rest2 =>
        if m1.isDigit && m2.isDigit && d2 m1 m2 ≤ 59 then
          match rest2 with
          | [] => some ()
          | ':' :: s1 :: s2 :: [] =>
            if s1.isDigit && s2.isDigit && d2 s1 s2 ≤ 59 then some () else none
          | _ => none
        else none
      | m1 :: m2 :: [] =>
        if m1.isDigit && m2.isDigit && d2 m1 m2 ≤ 59 then some () else none
      | _ => none
    else none
  | _ => none

/-- One or more fractional-second digits followed by an optional offset. -/
def parseFracDigits (l : List Char) : Option Unit :=
  match l with
  | c :: rest =>
    if c.isDigit then
      match rest with
      | d :: _ => if d.isDigit then parseFracDigits rest else parseTzOnly rest
      | [] => some ()
    else none
  | [] => none

/-- The time-of-day part of `datetime.fromisoformat`:
`HH[:MM[:SS[.ffffff]]]` with an optional trailing UTC offset. -/
def parseTimeTz (l : List Char) : Option (Nat × Nat × Nat) :=
  match l with
  | h1 :: h2 :: rest =>
    if h1.isDigit && h2.isDigit && d2 h1 h2 ≤ 23 then
      let h := d2 h1 h2
      match rest with
      | [] => some (h, 0, 0)
      | ':' :: m1 :: m2 :: rest2 =>
        if m1.isDigit && m2.isDigit && d2 m1 m2 ≤ 59 then
          let mi := d2 m1 m2
          match rest2 with
          | [] => some (h, mi, 0)
          | ':' :: s1 :: s2 :: rest3 =>
            if s1.isDigit && s2.isDigit && d2 s1 s2 ≤ 59 then
              let se := d2 s1 s2
              match rest3 with
              | [] => some (h, mi, se)
              | '.' :: fr => (parseFracDigits fr).map (fun _ => (h, mi, se))
              | ',' :: fr => (parseFracDigits fr).map (fun _ => (h, mi, se))
              | tz => (parseTzOnly tz).map (fun _ => (h, mi, se))
            else none
          | tz => (parseTzOnly tz).map (fun _ => (h, mi, 0))
        else none
      | tz => (parseTzOnly tz).map (fun _ => (h, 0, 0))
    else none
  | _ => none

/-- `datetime.fromisoformat` on the separated ISO-8601 forms relevant here:
`YYYY-MM-DD`, optionally followed by a single separator character and a
time-of-day with optional UTC offset.  Returns `none` exactly when Python
raises `ValueError` on such inputs. -/
def parseIso (l : List Char) : Option PyDateTime :=
  match l with
  | y1 :: y2 :: y3 :: y4 :: '-' :: mo1 :: mo2 :: '-' :: da1 :: da2 :: rest =>
    if y1.isDigit && y2.isDigit && y3.isDigit && y4.isDigit &&
        mo1.isDigit && mo2.isDigit && da1.isDigit && da2.isDigit then
      let y := d2 y1 y2 * 100 + d2 y3 y4
      let mo := d2 mo1 mo2
      let da := d2 da1 da2
      if 1 ≤ mo && mo ≤ 12 && 1 ≤ da && da ≤ daysInMonth y mo then
        match rest with
        | [] => some ⟨y, mo, da, 0, 0, 0⟩
        | _sep :: timeRest =>
          (parseTimeTz timeRest).map (fun t => ⟨y, mo, da, t.1, t.2.1, t.2.2⟩)
      else none
    else none
  | _ => none

def pad2 (n : Nat) : String := if n < 10 then "0" ++ toString n else toString n

def pad4 (n : Nat) : String :=
  if n < 10 then "000" ++ toString n
  else if n < 100 then "00" ++ toString n
  else if n < 1000 then "0" ++ toString n
  else toString n

/-- `dt.strftime("%m/%d/%Y %I:%M %p")` (C locale): zero-padded month, day,
year, 12-hour clock (0 and 12 both print as 12) and AM/PM. -/
def strftimeUS (dt : PyDateTime) : String :=
  pad2 dt.month ++ "/" ++ pad2 dt.day ++ "/" ++ pad4 dt.year ++ " " ++
    pad2 ((dt.hour + 11) % 12 + 1) ++ ":" ++ pad2 dt.minute ++ " " ++
    (if dt.hour < 12 then "AM" else "PM")

/-- `normalize_datetime` (src/main.py:72-80).  A falsy value yields `""`;
a string has every `"Z"` replaced by `"+00:00"` and is then parsed — on
`ValueError` the original string is returned unchanged; a truthy non-string
raises `AttributeError` at `value.replace`, which the `except ValueError`
clause does not catch. -/
def normalize_datetime (v : Json) : Except PyErr String :=
  if !truthy v then Except.ok ""
  else match v with
    | Json.str s =>
      let clean := pyReplaceS s "Z" "+00:00"
      match parseIso clean.data with
      | some dt => Except.ok (strftimeUS dt)
      | none => Except.ok s
    | _ => Except.error PyErr.attrError

/-- The canonical account record appended by `collect_accounts`
(src/main.py:100-115).  `name`, `type` and `folder` are strings: the final
sort applies `.lower()` to `name` and `folder` of every record, so Python
raises on any document in which one of them would not be a string — the
embedding performs that check at record construction, which rejects exactly
the same documents.  Credential fields are carried opaquely (Python only
inspects them later, in the renderer), so they remain JSON values. -/
structure Account where
  name : String
  type : String
  folder : String
  favorite : Bool
  username : Json
  password : Json
  totp : Json
  uris : List Json
  notes : Json
  last_modified : String
  created : String
  fields : List String

/-- `TYPE_NAMES.get(t, "Unknown")` (src/main.py:30-35, 103).  In CPython
`True == 1` and `hash(True) == hash(1)`, so a boolean `True` item type hits
the key `1`. -/
def typeName : Json → String
  | Json.num 1 => "Login"
  | Json.num 2 => "Secure Note"
  | Json.num 3 => "Card"
  | Json.num 4 => "Identity"
  | Json.bool true => "Login"
  | _ => "Unknown"

/-- `folders.get(item.get("folderId")) or "No folder"` (src/main.py:104). -/
def resolveFolder (folders : List (Json × Json)) (fid : Json) : Json :=
  let v := dictLookup folders fid
  if truthy v then v else Json.str "No folder"

/-- `.lower()` is only applied to strings; on any other value Python raises
`AttributeError`. -/
def asStr (v : Json) : Except PyErr String :=
  match v with
  | Json.str s => Except.ok s
  | _ => Except.error PyErr.attrError

/-- The folder-id-to-name dict comprehension of `collect_accounts`
(src/main.py:84): `{folder.get("id"): folder.get("name", "") for folder in
payload.get("folders", [])}`.  An unhashable id raises `TypeError` at
insertion. -/
def build_folders (payload : Json) : Except PyErr (List (Json × Json)) := do
  let fv ← jgetD payload "folders" (Json.arr [])
  let fs ← pyIter fv
  fs.mapM (fun folder => do
    let fid ← jget folder "id"
    let name ← jgetD folder "name" (Json.str "")
    if hashable fid then pure (fid, name) else throw PyErr.typeError)

/-- One iteration of the custom-fields loop (src/main.py:92-98): a field
with a falsy value is dropped; otherwise `f"{name}: {value}"` is appended,
the name defaulting to `"Field"`. -/
def customFieldStep (acc : List String) (field : Json) :
    Except PyErr (List String) := do
  let nameV ← jget field "name"
  let fname := if truthy nameV then nameV else Json.str "Field"
  let value ← jget field "value"
  if truthy value then pure (acc ++ [pyStr fname ++ ": " ++ pyStr value])
  else pure acc

/-- The per-item body of the `for item in payload.get("items", [])` loop of
`collect_accounts` (src/main.py:87-115). -/
def process_item (folders : List (Json × Json)) (item : Json) :
    Except PyErr Account := do
  let loginV ← jget item "login"
  let login := if truthy loginV then loginV else Json.obj []
  let urisV ← jgetD login "uris" (Json.arr [])
  let uriElems ← pyIter urisV
  let uris := uriElems.filterMap (fun u =>
    match u with
    | Json.obj kvs =>
      let uv := jlookup kvs "uri"
      if truthy uv then some uv else none
    | _ => none)
  let fieldsV ← jget item "fields"
  let fieldElems ← pyIter (if truthy fieldsV then fieldsV else Json.arr [])
  let customFields ← fieldElems.foldlM customFieldStep []
  let nameV ← jget item "name"
  let name ← asStr (if truthy nameV then nameV else Json.str "(untitled)")
  let typeV ← jget item "type"
  let type ← if hashable typeV then pure (typeName typeV)
    else throw PyErr.typeError
  let fidV ← jget item "folderId"
  let folder ← if hashable fidV then asStr (resolveFolder folders fidV)
    else throw PyErr.typeError
  let favV ← jget item "favorite"
  let usernameV ← jget login "username"
  let passwordV ← jget login "password"
  let totpV ← jget login "totp"
  let notesV ← jget item "notes"
  let rv ← jget item "revisionDate"
  let lrv ← jget item "lastRevisionDate"
  let last_modified ← normalize_datetime (if truthy rv then rv else lrv)
  let cv ← jget item "creationDate"
  let created ← normalize_datetime cv
  pure
    { name := name
      type := type
      folder := folder
      favorite := truthy favV
      username := if truthy usernameV then usernameV else Json.str ""
      password := if truthy passwordV then passwordV else Json.str ""
      totp := if truthy totpV then totpV else Json.str ""
      uris := uris
      notes := if truthy notesV then notesV else Json.str ""
      last_modified := last_modified
      created := created
      fields := customFields }

/-- `collect_accounts` before its final sort (src/main.py:83-115). -/
def collect_core (payload : Json) : Except PyErr (List Account) := do
  let folders ← build_folders payload
  let itemsV ← jgetD payload "items" (Json.arr [])
  let items ← pyIter itemsV
  items.mapM (process_item folders)

/-- `str.lower()`; CPython lowercases Unicode, of which the ASCII fragment is
modelled (all claim inputs are ASCII). -/
def pyLower (s : String) : String := String.mk (s.data.map Char.toLower)

/-- The sort key of src/main.py:117:
`lambda entry: (entry["folder"].lower(), entry["name"].lower())`. -/
def sortKey (a : Account) : String × String := (pyLower a.folder, pyLower a.name)

/-- Lexicographic `<=` on character lists: Python string comparison compares
Unicode code points position by position. -/
def clLe : List Char → List Char → Bool
  | [], _ => true
  | _ :: _, [] => false
  | a :: as, b :: bs => if a < b then true else if a = b then clLe as bs else false

def strLe (s t : String) : Bool := clLe s.data t.data

/-- Python tuple comparison on the `(folder, name)` sort key. -/
def keyLe (a b : String × String) : Bool :=
  if a.1 = b.1 then strLe a.2 b.2 else strLe a.1 b.1

def accLe (a b : Account) : Bool := keyLe (sortKey a) (sortKey b)

/-- Stable insertion: an element is placed before the first resident that it
compares `le` to, so earlier elements stay ahead of equal later ones. -/
def insertLe (le : α → α → Bool) (x : α) : List α → List α
  | [] => [x]
  | y :: ys => if le x y then x :: y :: ys else y :: insertLe le x ys

/-- `list.sort` is a stable sort; a stable sort by a total preorder is
extensionally unique, so stable insertion sort is an exact model of
CPython's Timsort here. -/
def stableSort (le : α → α → Bool) (l : List α) : List α :=
  l.foldr (insertLe le) []

/-- `collect_accounts` (src/main.py:83-118): normalization followed by the
stable in-place sort by `(folder.lower(), name.lower())`. -/
def collect_accounts (payload : Json) : Except PyErr (List Account) := do
  let accounts ← collect_core payload
  pure (stableSort accLe accounts)

/-- Decimal digits of a positive natural, most significant first; the first
argument is structural fuel (the number itself always suffices, since
`n / 10 < n` for positive `n`). -/
def natStrAux : Nat → Nat → List Char → List Char
  | _, 0, acc => acc
  | 0, _ + 1, acc => acc
  | f + 1, n + 1, acc =>
    natStrAux f ((n + 1) / 10) (Char.ofNat (48 + (n + 1) % 10) :: acc)

/-- Python `str(n)` for a non-negative integer (the `count` placeholder value
`str(len(accounts))`, src/main.py:130). -/
def natStr (n : Nat) : String :=
  if n = 0 then "0" else String.mk (natStrAux n n [])

/-- `sep.join(parts)`. -/
def pyJoin (sep : String) : List String → String
  | [] => ""
  | [x] => x
  | x :: y :: rest => x ++ sep ++ pyJoin sep (y :: rest)

/-- `render_meta` (src/main.py:158-170): the tag-badge line of the identity
cell.  `folder` and `type` of an `Account` are strings, so their truthiness
is non-emptiness. -/
def render_meta (entry : Account) : String :=
  let tags : List String :=
    (if entry.folder != "" && pyLower entry.folder != "no folder" then
      ["<span class=\"tag\">" ++ escape entry.folder ++ "</span>"] else []) ++
    (if entry.type != "" then
      ["<span class=\"tag\">" ++ escape entry.type ++ "</span>"] else []) ++
    (if entry.favorite then
      ["<span class=\"tag tag--favorite\">Favorite</span>"] else [])
  if tags.isEmpty then "<div class=\"entry-meta\">None</div>"
  else "<div class=\"entry-meta\">" ++ pyJoin "" tags ++ "</div>"

/-- `html.escape(v)` on a value of unchecked type: a non-string raises
`AttributeError` at the first `.replace`. -/
def pyEscapeJ (v : Json) : Except PyErr String :=
  match v with
  | Json.str s => Except.ok (escape s)
  | _ => Except.error PyErr.attrError

/-- `entry[...] or default` for a credential value. -/
def orJ (v : Json) (d : String) : Json := if truthy v then v else Json.str d

/-- `render_credentials_extra` (src/main.py:173-180): the first URI, if any,
and the TOTP secret, if any. -/
def render_credentials_extra (entry : Account) : Except PyErr String := do
  let bits1 : List String ←
    match entry.uris with
    | [] => pure []
    | u :: _ => do
      let primary ← pyEscapeJ u
      pure ["<span>URL: " ++ primary ++ "</span>"]
  let bits2 : List String ←
    if truthy entry.totp then do
      let t ← pyEscapeJ entry.totp
      pure ["<span>2FA: " ++ t ++ "</span>"]
    else pure []
  pure (pyJoin "\n" (bits1 ++ bits2))

/-- `render_credentials_section` (src/main.py:183-202). -/
def render_credentials_section (entry : Account) : Except PyErr String := do
  let username ← pyEscapeJ (orJ entry.username "-")
  let password ← pyEscapeJ (orJ entry.password "-")
  let extras ← render_credentials_extra entry
  let extra_html :=
    if extras != "" then
      "<div class=\"credentials-extra\">" ++ extras ++ "</div>"
    else ""
  pure (pyJoin "\n" [
    "<div class=\"credentials\">",
    "  <div class=\"credential-block credential-block--user\">",
    "    <span class=\"credential-label\">Username / Email</span>",
    "    <span class=\"credential-value\">" ++ username ++ "</span>",
    "  </div>",
    "  <div class=\"credential-block credential-block--password\">",
    "    <span class=\"credential-label\">Password</span>",
    "    <span class=\"credential-value\">" ++ password ++ "</span>",
    "  </div>",
    "  " ++ extra_html,
    "</div>"])

/-- One iteration of `build_rows`' loop (src/main.py:141-154). -/
def buildRow (entry : Account) : Except PyErr String := do
  let name := escape (if entry.name != "" then entry.name else "(untitled)")
  let meta := render_meta entry
  let credential_block ← render_credentials_section entry
  pure (pyJoin "\n" [
    "<tr>",
    "  <td><div class=\"entry-name\">" ++ name ++ "</div>" ++ meta ++ "</td>",
    "  <td>" ++ credential_block ++ "</td>",
    "</tr>"])

/-- `build_rows` (src/main.py:139-155): one two-cell table row per account,
joined with newlines. -/
def build_rows (accounts : List Account) : Except PyErr String := do
  let parts ← accounts.mapM buildRow
  pure (pyJoin "\n" parts)

/-- Modelled from the spec: the backing template resource
`templates/layout.html` is not part of `src/`; §6 of the spec says only that
it is a markup document containing the placeholder tokens `title`,
`generated`, `count`, `rows` and `style_href`.  This concrete document
realizes that contract. -/
def layout_template : String :=
  "<html><head><title>\x7b\x7btitle\x7d\x7d</title>" ++
  "<link rel=\"stylesheet\" href=\"\x7b\x7bstyle_href\x7d\x7d\"></head>" ++
  "<body><p>Generated \x7b\x7bgenerated\x7d\x7d | \x7b\x7bcount\x7d\x7d entries</p>" ++
  "<table><tbody>\x7b\x7brows\x7d\x7d</tbody></table></body></html>"

/-- The placeholder row substituted for an empty table body
(src/main.py:131). -/
def emptyRow : String :=
  "<tr><td colspan=\"2\" class=\"empty\">No entries found</td></tr>"

/-- The replacement table of `render_html` (src/main.py:127-133), in the
Python dict's insertion order. -/
def renderReplacements (accounts : List Account) (title : String)
    (generated : String) (style_href : String) (rows_html : String) :
    List (String × String) :=
  [("title", escape title),
   ("generated", generated),
   ("count", natStr accounts.length),
   ("rows", if rows_html != "" then rows_html else emptyRow),
   ("style_href", style_href)]

/-- `render_html` (src/main.py:121-136) given the loaded template text, the
`datetime.now()` timestamp string and the stylesheet URI (all three come
from the environment).  Each placeholder `{{key}}` is replaced over the
whole intermediate document, sequentially, in the fixed order of
`renderReplacements`. -/
def render_html (template : String) (accounts : List Account) (title : String)
    (generated : String) (style_href : String) : Except PyErr String := do
  let rows_html ← build_rows accounts
  pure ((renderReplacements accounts title generated style_href rows_html).foldl
    (fun html kv => pyReplaceS html ("\x7b\x7b" ++ kv.1 ++ "\x7d\x7d") kv.2)
    template)

/-- The host facts `find_browser_binary` (src/main.py:217-296) consults:
the override variable `BITWARDEN_FORMATTER_BROWSER` (`none` when unset),
`Path.expanduser`, path existence, the lowered `platform.system()` string,
and `shutil.which`.  `winRoots` is the realized iteration order of the
Python set built from the `PROGRAMFILES`, `PROGRAMFILES(X86)` and
`LOCALAPPDATA` roots (the source iterates a set, whose order CPython does
not fix; the model takes the realized order, restricted to the set
variables, as part of the environment). -/
structure HostEnv where
  envBrowser : Option String
  expanduser : String → String
  pathExists : String → Bool
  system : String
  winRoots : List String
  which : String → Option String

/-- The vendor/app/binary suffix tuples of the Windows branch
(src/main.py:245-250), in their fixed priority order. -/
def winSuffixes : List (List String) :=
  [["Microsoft", "Edge", "Application", "msedge.exe"],
   ["Microsoft", "Edge SxS", "Application", "msedge.exe"],
   ["Google", "Chrome", "Application", "chrome.exe"],
   ["Chromium", "Application", "chrome.exe"]]

/-- `base.joinpath(*suffix)` with the separator fixed to `/` (claims never
inspect the path text). -/
def joinPath (base : String) (parts : List String) : String :=
  parts.foldl (fun acc p => acc ++ "/" ++ p) base

def macCandidates : List String :=
  ["/Applications/Google Chrome.app/Contents/MacOS/Google Chrome",
   "/Applications/Google Chrome Canary.app/Contents/MacOS/Google Chrome Canary",
   "/Applications/Microsoft Edge.app/Contents/MacOS/Microsoft Edge",
   "/Applications/Chromium.app/Contents/MacOS/Chromium",
   "/Applications/Brave Browser.app/Contents/MacOS/Brave Browser"]

def linuxCandidates : List String :=
  ["/usr/bin/google-chrome-stable",
   "/usr/bin/google-chrome",
   "/usr/bin/chromium-browser",
   "/usr/bin/chromium",
   "/usr/bin/microsoft-edge",
   "/snap/bin/chromium",
   "/usr/bin/brave-browser"]

def whichNames : List String :=
  ["msedge", "microsoft-edge", "chrome", "google-chrome-stable",
   "google-chrome", "chromium-browser", "chromium", "brave-browser"]

/-- The platform-specific well-known absolute locations, in the source's
priority order (src/main.py:233-275): outer loop over roots, inner loop
over suffix tuples on Windows; fixed lists elsewhere. -/
def platformCandidates (e : HostEnv) : List String :=
  if e.system == "windows" then
    e.winRoots.flatMap (fun base => winSuffixes.map (joinPath base))
  else if e.system == "darwin" then macCandidates
  else linuxCandidates

def engineNotFoundMsg : String :=
  "No supported headless browser found. Install Edge/Chrome/Chromium or set " ++
  "BITWARDEN_FORMATTER_BROWSER to a custom binary."

/-- The `candidates` list as the source actually builds it: `add_candidate`
keeps only existing platform paths (src/main.py:226-231), while the
`shutil.which` results are appended unfiltered (src/main.py:287-288). -/
def searchCandidates (e : HostEnv) : List String :=
  (platformCandidates e).filter e.pathExists ++ whichNames.filterMap e.which

/-- The final scan of src/main.py:290-296: first candidate that exists, else
`FileNotFoundError`. -/
def findSearch (e : HostEnv) : Except PyErr String :=
  match (searchCandidates e).find? e.pathExists with
  | some c => Except.ok c
  | none => Except.error (PyErr.fileNotFound engineNotFoundMsg)

/-- `find_browser_binary` (src/main.py:217-296): the override variable is
consulted first (`if env_browser:` skips both an unset and an empty
variable); a set override naming an existing path is returned, otherwise
the search falls through. -/
def find_browser_binary (e : HostEnv) : Except PyErr String :=
  match e.envBrowser with
  | some s =>
    if s != "" then
      if e.pathExists (e.expanduser s) then Except.ok (e.expanduser s)
      else findSearch e
    else findSearch e
  | none => findSearch e

/-- The full concatenated ordered search list below the override: well-known
platform paths first, then executable-search-path lookups. -/
def fullSearchList (e : HostEnv) : List String :=
  platformCandidates e ++ whichNames.filterMap e.which

/-- A completed subprocess (`subprocess.run(..., capture_output=True)`):
exit status and captured byte streams. -/
structure ProcResult where
  returncode : Int
  stdout : List Nat
  stderr : List Nat

/-- `bytes.decode("utf-8", errors="ignore")`: UTF-8 decoding that drops
undecodable bytes instead of raising. -/
def decodeUtf8Ignore : List Nat → List Char
  | [] => []
  | b :: rest =>
    if b < 128 then Char.ofNat b :: decodeUtf8Ignore rest
    else if 194 ≤ b && b ≤ 223 then
      match rest with
      | b2 :: r2 =>
        if 128 ≤ b2 && b2 ≤ 191 then
          Char.ofNat ((b - 192) * 64 + (b2 - 128)) :: decodeUtf8Ignore r2
        else decodeUtf8Ignore (b2 :: r2)
      | [] => []
    else if 224 ≤ b && b ≤ 239 then
      match rest with
      | b2 :: b3 :: r3 =>
        if (if b == 224 then 160 ≤ b2 && b2 ≤ 191
            else if b == 237 then 128 ≤ b2 && b2 ≤ 159
            else 128 ≤ b2 && b2 ≤ 191) && (128 ≤ b3 && b3 ≤ 191) then
          Char.ofNat ((b - 224) * 4096 + (b2 - 128) * 64 + (b3 - 128)) ::
            decodeUtf8Ignore r3
        else decodeUtf8Ignore (b2 :: b3 :: r3)
      | _ => []
    else if 240 ≤ b && b ≤ 244 then
      match rest with
      | b2 :: b3 :: b4 :: r4 =>
        if (if b == 240 then 144 ≤ b2 && b2 ≤ 191
            else if b == 244 then 128 ≤ b2 && b2 ≤ 143
            else 128 ≤ b2 && b2 ≤ 191) && (128 ≤ b3 && b3 ≤ 191) &&
            (128 ≤ b4 && b4 ≤ 191) then
          Char.ofNat ((b - 240) * 262144 + (b2 - 128) * 4096 +
            (b3 - 128) * 64 + (b4 - 128)) :: decodeUtf8Ignore r4
        else decodeUtf8Ignore (b2 :: b3 :: b4 :: r4)
      | _ => []
    else decodeUtf8Ignore rest
termination_by l => l.length
decreasing_by all_goals simp_arith

def decodeBytes (bs : List Nat) : String := String.mk (decodeUtf8Ignore bs)

/-- The two flag variants of `run_headless_browser` (src/main.py:300-317):
the `--headless=new` spelling first, the legacy `--headless` second. -/
def headless_commands (browser htmlUri output : String) : List (List String) :=
  [[browser, "--headless=new", "--disable-gpu", "--print-to-pdf=" ++ output,
    "--print-to-pdf-no-header", htmlUri],
   [browser, "--headless", "--disable-gpu", "--print-to-pdf=" ++ output,
    "--print-to-pdf-no-header", htmlUri]]

/-- The `RuntimeError` message of src/main.py:325-327: the last variant's
captured standard error, decoded permissively. -/
def convFailMsg (last : Option ProcResult) : String :=
  "Headless browser failed to create the PDF. Output: " ++
  (match last with
   | some e => decodeBytes e.stderr
   | none => "unknown")

/-- The fallback loop of src/main.py:319-327, returning the outcome together
with the list of commands actually invoked.  `subprocess.run(..., check=True)`
raises `CalledProcessError` exactly when the exit status is non-zero. -/
def runCommands (run : List String → ProcResult) :
    List (List String) → Option ProcResult → Except PyErr Unit × List (List String)
  | [], last => (Except.error (PyErr.runtimeError (convFailMsg last)), [])
  | c :: rest, _last =>
    let r := run c
    if r.returncode == 0 then (Except.ok (), [c])
    else
      let res := runCommands run rest (some r)
      (res.1, c :: res.2)

/-- `run_headless_browser` (src/main.py:299-327). -/
def run_headless_browser (run : List String → ProcResult)
    (browser htmlUri output : String) : Except PyErr Unit × List (List String) :=
  runCommands run (headless_commands browser htmlUri output) none

/-- `Path.as_uri()` modelled for absolute POSIX paths (percent-encoding is
never inspected by a claim). -/
def pathAsUri (p : String) : String := "file://" ++ p

/-- `Path.with_suffix(suf)`: replace the last extension, or append one
(modelled for names whose directory part contains no dot). -/
def withSuffix (p suf : String) : String :=
  let parts := p.splitOn "."
  if parts.length ≤ 1 then p ++ suf
  else String.intercalate "." parts.dropLast ++ suf

/-- Everything `build_pdf` (src/main.py:205-214) reads from the world:
existence of the template and stylesheet resources, their paths, the
template text, the wall-clock timestamp, the host facts for the engine
search, and the subprocess runner. -/
structure PdfEnv where
  host : HostEnv
  run : List String → ProcResult
  templateExists : Bool
  styleExists : Bool
  templatePath : String
  stylePath : String
  templateText : String
  generatedNow : String

/-- Observable side effects of `build_pdf`, in order: the sibling HTML file
write, the engine search, and each subprocess invocation. -/
inductive PdfEvent where
  | wroteHtml : String → PdfEvent
  | locate : PdfEvent
  | ranProcess : List String → PdfEvent

/-- `render_html` including its template-existence guard
(src/main.py:121-126): a missing template raises `FileNotFoundError` before
anything else. -/
def render_html_io (pe : PdfEnv) (accounts : List Account) (title : String) :
    Except PyErr String :=
  if !pe.templateExists then
    Except.error (PyErr.fileNotFound ("Missing HTML template: " ++ pe.templatePath))
  else
    render_html pe.templateText accounts title pe.generatedNow
      (pathAsUri pe.stylePath)

/-- `build_pdf` (src/main.py:205-214): stylesheet guard, render, HTML write,
engine search, engine invocation — with the effect trace made explicit. -/
def build_pdf (pe : PdfEnv) (accounts : List Account) (title : String)
    (output : String) : Except PyErr Unit × List PdfEvent :=
  if !pe.styleExists then
    (Except.error (PyErr.fileNotFound ("Missing CSS file: " ++ pe.stylePath)), [])
  else
    match render_html_io pe accounts title with
    | Except.error e => (Except.error e, [])
    | Except.ok _ =>
      let htmlPath := withSuffix output ".html"
      let ev1 := [PdfEvent.wroteHtml htmlPath, PdfEvent.locate]
      match find_browser_binary pe.host with
      | Except.error e => (Except.error e, ev1)
      | Except.ok browser =>
        let r := run_headless_browser pe.run browser (pathAsUri htmlPath) output
        (r.1, ev1 ++ r.2.map PdfEvent.ranProcess)

/-! ## Claim C3: timestamp normalization -/

/-- C3: `normalize_datetime` maps `"2023-05-01T12:00:00Z"` to
`"05/01/2023 12:00 PM"` (the `Z` suffix is rewritten to `+00:00` before
parsing); every non-empty string that fails to parse is returned unchanged;
`None` and `""` yield `""`. -/
theorem normalize_datetime_spec :
    normalize_datetime (Json.str "2023-05-01T12:00:00Z") =
      Except.ok "05/01/2023 12:00 PM" ∧
    (∀ s : String, s ≠ "" →
      parseIso (pyReplaceS s "Z" "+00:00").data = none →
      normalize_datetime (Json.str s) = Except.ok s) ∧
    normalize_datetime Json.null = Except.ok "" ∧
    normalize_datetime (Json.str "") = Except.ok "" := by
  refine ⟨rfl, ?_, rfl, rfl⟩
  intro s hs hp
  simp only [normalize_datetime, truthy]
  have hne : (s != "") = true := by simpa using hs
  rw [hne]
  simp [hp]

/-- Witness for C3 at the spec's unparsable example. -/
theorem normalize_datetime_spec_witness :
    normalize_datetime (Json.str "not-a-date") = Except.ok "not-a-date" :=
  normalize_datetime_spec.2.1 "not-a-date" (by decide) (by rfl)

/-! ## Claim C9: an empty resolved folder name degrades to the sentinel -/

/-- A document whose only folder has the empty string as its name, an item
pointing at it. -/
def folderDocA : Json :=
  Json.obj [("folders", Json.arr [Json.obj [("id", Json.str "f1"),
    ("name", Json.str "")]]),
    ("items", Json.arr [Json.obj [("name", Json.str "Entry"),
      ("folderId", Json.str "f1")]])]

/-- The same item with no folder table at all. -/
def folderDocB : Json :=
  Json.obj [("items", Json.arr [Json.obj [("name", Json.str "Entry"),
    ("folderId", Json.str "f1")]])]


/-- The account record both folder documents above normalize to. -/
def entryAcc : Account :=
  { name := "Entry"
    type := "Unknown"
    folder := "No folder"
    favorite := false
    username := Json.str ""
    password := Json.str ""
    totp := Json.str ""
    uris := []
    notes := Json.str ""
    last_modified := ""
    created := ""
    fields := [] }

theorem collect_folderDocA : collect_accounts folderDocA = Except.ok [entryAcc] := by
  rfl

theorem collect_folderDocB : collect_accounts folderDocB = Except.ok [entryAcc] := by
  rfl

/-- C9: a `folderId` that resolves to an empty (or null) folder name yields
the sentinel `"No folder"`, indistinguishably from an unresolved id: the
resolution expression of src/main.py:104 gives the sentinel in both cases,
and the two concrete documents above normalize to identical records. -/
theorem resolveFolder_empty_name :
    (∀ (folders : List (Json × Json)) (fid : Json),
      dictLookup folders fid = Json.str "" ∨ dictLookup folders fid = Json.null →
      resolveFolder folders fid = Json.str "No folder" ∧
      resolveFolder folders fid = resolveFolder [] fid) ∧
    collect_accounts folderDocA = collect_accounts folderDocB ∧
    (collect_accounts folderDocA).map (fun l => l.map (fun a => a.folder)) =
      Except.ok ["No folder"] := by
  refine ⟨?_, by rw [collect_folderDocA, collect_folderDocB], by rfl⟩
  intro folders fid h
  have h2 : truthy (dictLookup folders fid) = false := by
    rcases h with h | h <;> rw [h] <;> rfl
  constructor
  · show (if truthy (dictLookup folders fid) = true then dictLookup folders fid
      else Json.str "No folder") = Json.str "No folder"
    rw [h2]
    simp
  · show (if truthy (dictLookup folders fid) = true then dictLookup folders fid
      else Json.str "No folder") = resolveFolder [] fid
    rw [h2]
    simp
    rfl

/-- Witness for C9's universal part at a concrete folder table. -/
theorem resolveFolder_empty_name_witness :
    resolveFolder [(Json.str "f1", Json.str "")] (Json.str "f1") =
      Json.str "No folder" :=
  (resolveFolder_empty_name.1 [(Json.str "f1", Json.str "")] (Json.str "f1")
    (Or.inl (by rfl))).1

/-! ## Claim C5: the engine-invocation fallback chain -/

/-- C5: `run_headless_browser` tries the `--headless=new` variant first and
the legacy `--headless` variant second, returning as soon as a variant exits
with status zero; when every variant exits non-zero it raises a
`RuntimeError` carrying the last variant's captured standard error, decoded
permissively.  The second component of the result is the list of commands
actually invoked. -/
theorem run_headless_browser_spec (run : List String → ProcResult)
    (browser htmlUri output : String) :
    let cmdNew := [browser, "--headless=new", "--disable-gpu",
      "--print-to-pdf=" ++ output, "--print-to-pdf-no-header", htmlUri]
    let cmdOld := [browser, "--headless", "--disable-gpu",
      "--print-to-pdf=" ++ output, "--print-to-pdf-no-header", htmlUri]
    ((run cmdNew).returncode = 0 →
      run_headless_browser run browser htmlUri output = (Except.ok (), [cmdNew])) ∧
    ((run cmdNew).returncode ≠ 0 → (run cmdOld).returncode = 0 →
      run_headless_browser run browser htmlUri output =
        (Except.ok (), [cmdNew, cmdOld])) ∧
    ((run cmdNew).returncode ≠ 0 → (run cmdOld).returncode ≠ 0 →
      run_headless_browser run browser htmlUri output =
        (Except.error (PyErr.runtimeError
          ("Headless browser failed to create the PDF. Output: " ++
            decodeBytes (run cmdOld).stderr)), [cmdNew, cmdOld])) := by
  refine ⟨?_, ?_, ?_⟩
  · intro h1
    simp [run_headless_browser, headless_commands, runCommands, h1]
  · intro h1 h2
    simp [run_headless_browser, headless_commands, runCommands, h1, h2]
  · intro h1 h2
    simp [run_headless_browser, headless_commands, runCommands, h1, h2, convFailMsg]

/-- A concrete runner on which the new spelling fails and the legacy one
succeeds. -/
def legacyOnlyRun : List String → ProcResult :=
  fun cmd =>
    if cmd.contains "--headless" then
      { returncode := 0, stdout := [], stderr := [] }
    else
      { returncode := 1, stdout := [], stderr := [101, 114, 114] }

/-- Witness for C5: under `legacyOnlyRun` the fallback succeeds after both
variants were invoked, in order. -/
theorem run_headless_browser_spec_witness :
    run_headless_browser legacyOnlyRun "b" "file:///v.html" "/v.pdf" =
      (Except.ok (), [["b", "--headless=new", "--disable-gpu",
        "--print-to-pdf=/v.pdf", "--print-to-pdf-no-header", "file:///v.html"],
       ["b", "--headless", "--disable-gpu", "--print-to-pdf=/v.pdf",
        "--print-to-pdf-no-header", "file:///v.html"]]) :=
  (run_headless_browser_spec legacyOnlyRun "b" "file:///v.html" "/v.pdf").2.1
    (by decide) (by decide)

/-! ## Claim C6: the engine search order -/

/-- Filtering a prefix of a scan by the scanned predicate does not change the
first hit: `add_candidate`'s existence filter is invisible to the final
`for candidate in candidates` loop. -/
theorem find?_filter_append (p : α → Bool) (l m : List α) :
    (l.filter p ++ m).find? p = (l ++ m).find? p := by
  induction l with
  | nil => rfl
  | cons a l ih =>
    by_cases h : p a = true
    · simp [List.filter_cons, h, List.find?_cons, ih]
    · simp only [List.filter_cons, h, if_neg, Bool.false_eq_true, not_false_iff,
        ite_false, List.cons_append, List.find?]
      rw [ih]
      simp [List.find?_cons, h]

/-- C6: the override variable wins when it names an existing path; a set but
non-existing override is ignored and the search falls through (equivalently:
the result is that of an environment without the override); below the
override the returned candidate is the first existing entry of the full
concatenated ordered list (platform-specific well-known paths, then
executable-search-path lookups), and when that list has no existing entry
the search fails with the `FileNotFoundError` engine-not-found condition —
`find_browser_binary` is a pure lookup and invokes no process. -/
theorem find_browser_binary_spec (e : HostEnv) :
    (∀ s, e.envBrowser = some s → s ≠ "" →
      e.pathExists (e.expanduser s) = true →
      find_browser_binary e = Except.ok (e.expanduser s)) ∧
    (∀ s, e.envBrowser = some s → e.pathExists (e.expanduser s) = false →
      find_browser_binary e = findSearch e ∧
      find_browser_binary e = find_browser_binary { e with envBrowser := none }) ∧
    (findSearch e =
      match (fullSearchList e).find? e.pathExists with
      | some c => Except.ok c
      | none => Except.error (PyErr.fileNotFound engineNotFoundMsg)) ∧
    ((fullSearchList e).find? e.pathExists = none →
      findSearch e = Except.error (PyErr.fileNotFound engineNotFoundMsg)) := by
  have hchar : findSearch e =
      match (fullSearchList e).find? e.pathExists with
      | some c => Except.ok c
      | none => Except.error (PyErr.fileNotFound engineNotFoundMsg) := by
    unfold findSearch searchCandidates fullSearchList
    rw [find?_filter_append]
  refine ⟨?_, ?_, hchar, ?_⟩
  · intro s hs hne hex
    simp [find_browser_binary, hs, hne, hex]
  · intro s hs hex
    constructor
    · by_cases hne : s = ""
      · subst hne
        simp [find_browser_binary, hs]
      · simp [find_browser_binary, hs, hne, hex]
    · by_cases hne : s = ""
      · subst hne
        simp [find_browser_binary, hs]
        rfl
      · simp [find_browser_binary, hs, hne, hex]
        rfl
  · intro hnone
    rw [hchar, hnone]

/-- A host with an existing override. -/
def overrideHost : HostEnv :=
  { envBrowser := some "/opt/bin/chromium"
    expanduser := fun s => s
    pathExists := fun p => p == "/opt/bin/chromium"
    system := "linux"
    winRoots := []
    which := fun _ => none }

/-- Witness for C6: the override path is returned unchanged. -/
theorem find_browser_binary_spec_witness :
    find_browser_binary overrideHost = Except.ok "/opt/bin/chromium" :=
  (find_browser_binary_spec overrideHost).1 "/opt/bin/chromium" rfl
    (by decide) (by decide)

/-! ## Claim C8: a missing template aborts before any engine activity -/

/-- C8: when the template resource does not exist, rendering fails with the
`FileNotFoundError` "Missing HTML template" condition, and `build_pdf` fails
without writing the HTML file, without consulting the engine search and
without invoking any subprocess: its effect trace is empty. -/
theorem build_pdf_template_missing (pe : PdfEnv) (accounts : List Account)
    (title output : String) :
    pe.templateExists = false →
      render_html_io pe accounts title =
        Except.error (PyErr.fileNotFound
          ("Missing HTML template: " ++ pe.templatePath)) ∧
      (∃ err, (build_pdf pe accounts title output).1 = Except.error err) ∧
      (build_pdf pe accounts title output).2 = [] := by
  intro h
  have hrender : render_html_io pe accounts title =
      Except.error (PyErr.fileNotFound
        ("Missing HTML template: " ++ pe.templatePath)) := by
    simp [render_html_io, h]
  refine ⟨hrender, ?_, ?_⟩
  · by_cases hs : pe.styleExists = true
    · refine ⟨PyErr.fileNotFound ("Missing HTML template: " ++ pe.templatePath), ?_⟩
      simp [build_pdf, hs, hrender]
    · refine ⟨PyErr.fileNotFound ("Missing CSS file: " ++ pe.stylePath), ?_⟩
      simp [build_pdf, hs]
  · by_cases hs : pe.styleExists = true
    · simp [build_pdf, hs, hrender]
    · simp [build_pdf, hs]

/-- A concrete environment whose template is missing. -/
def noTemplateEnv : PdfEnv :=
  { host :=
      { envBrowser := none
        expanduser := fun s => s
        pathExists := fun _ => true
        system := "linux"
        winRoots := []
        which := fun _ => none }
    run := fun _ => { returncode := 0, stdout := [], stderr := [] }
    templateExists := false
    styleExists := true
    templatePath := "/app/templates/layout.html"
    stylePath := "/app/styles/style.css"
    templateText := ""
    generatedNow := "" }

/-- Witness for C8 at the concrete environment. -/
theorem build_pdf_template_missing_witness :
    render_html_io noTemplateEnv [] "T" =
      Except.error (PyErr.fileNotFound
        ("Missing HTML template: " ++ noTemplateEnv.templatePath)) ∧
    (∃ err, (build_pdf noTemplateEnv [] "T" "/out.pdf").1 = Except.error err) ∧
    (build_pdf noTemplateEnv [] "T" "/out.pdf").2 = [] :=
  build_pdf_template_missing noTemplateEnv [] "T" "/out.pdf" rfl

/-! ## Claim C7: empty export renders the placeholder row and count 0 -/

/-- An export document with an empty `items` list. -/
def emptyDoc : Json := Json.obj [("items", Json.arr [])]

/-- The document rendered from the empty account list (concrete title,
timestamp and stylesheet reference). -/
def c7Rendered : String :=
  "<html><head><title>Bitwarden Vault Overview</title>" ++
  "<link rel=\"stylesheet\" href=\"file:///app/styles/style.css\"></head>" ++
  "<body><p>Generated 10/12/2025 09:00 AM | 0 entries</p>" ++
  "<table><tbody>" ++
  "<tr><td colspan=\"2\" class=\"empty\">No entries found</td></tr>" ++
  "</tbody></table></body></html>"

/-- C7: an export whose `items` list is empty normalizes to no accounts, and
the rendered document carries the literal "No entries found" row spanning
both columns in place of the table body, with the count placeholder
replaced by `"0"`. -/
theorem render_empty_items :
    collect_accounts emptyDoc = Except.ok [] ∧
    render_html layout_template [] "Bitwarden Vault Overview"
      "10/12/2025 09:00 AM" "file:///app/styles/style.css" =
      Except.ok c7Rendered ∧
    (emptyRow.data <:+: c7Rendered.data) ∧
    ("No entries found".data <:+: c7Rendered.data) ∧
    (" | 0 entries</p>".data <:+: c7Rendered.data) := by
  refine ⟨by rfl, by rfl, ?_, ?_, ?_⟩ <;> decide

/-! ## Claim C10: sequential substitution re-substitutes inserted tokens -/

/-- An account whose name is the literal text `{{style_href}}` (no
markup-special characters, so escaping leaves it unchanged). -/
def tokenAcc : Account :=
  { name := "\x7b\x7bstyle_href\x7d\x7d"
    type := "Login"
    folder := "No folder"
    favorite := false
    username := Json.str "alice"
    password := Json.str "pw"
    totp := Json.str ""
    uris := []
    notes := Json.str ""
    last_modified := ""
    created := ""
    fields := [] }

/-- The rows fragment built for `tokenAcc`: the token is still present. -/
def c10Rows : String :=
  "<tr>\n  <td><div class=\"entry-name\">\x7b\x7bstyle_href\x7d\x7d</div>" ++
  "<div class=\"entry-meta\"><span class=\"tag\">Login</span></div></td>\n" ++
  "  <td><div class=\"credentials\">\n" ++
  "  <div class=\"credential-block credential-block--user\">\n" ++
  "    <span class=\"credential-label\">Username / Email</span>\n" ++
  "    <span class=\"credential-value\">alice</span>\n  </div>\n" ++
  "  <div class=\"credential-block credential-block--password\">\n" ++
  "    <span class=\"credential-label\">Password</span>\n" ++
  "    <span class=\"credential-value\">pw</span>\n  </div>\n  \n" ++
  "</div></td>\n</tr>"

/-- The final document for `tokenAcc`: the token inside the rows fragment
has been replaced by the `style_href` value of the later substitution. -/
def c10Rendered : String :=
  "<html><head><title>T</title>" ++
  "<link rel=\"stylesheet\" href=\"STYLESHEET.css\"></head>" ++
  "<body><p>Generated G | 1 entries</p><table><tbody>" ++
  "<tr>\n  <td><div class=\"entry-name\">STYLESHEET.css</div>" ++
  "<div class=\"entry-meta\"><span class=\"tag\">Login</span></div></td>\n" ++
  "  <td><div class=\"credentials\">\n" ++
  "  <div class=\"credential-block credential-block--user\">\n" ++
  "    <span class=\"credential-label\">Username / Email</span>\n" ++
  "    <span class=\"credential-value\">alice</span>\n  </div>\n" ++
  "  <div class=\"credential-block credential-block--password\">\n" ++
  "    <span class=\"credential-label\">Password</span>\n" ++
  "    <span class=\"credential-value\">pw</span>\n  </div>\n  \n" ++
  "</div></td>\n</tr></tbody></table></body></html>"

/-- A pattern containing a brace cannot occur inside brace-free text. -/
theorem no_brace_not_infix (pat l : List Char) (hp : '\x7b' ∈ pat)
    (hl : '\x7b' ∉ l) : ¬ (pat <:+: l) := by
  rintro ⟨s, t, h⟩
  exact hl (h ▸ (List.mem_append.mpr (Or.inl
    (List.mem_append.mpr (Or.inr hp)))))

/-- C10: substitution is sequential over the whole document in the order
title, generated, count, rows, style_href, each step replacing every
occurrence; consequently an account name spelled `{{style_href}}` reaches
the rows fragment intact and is itself replaced by the style reference in
the final document, where no `{{style_href}}` token (indeed no brace at
all) remains. -/
theorem render_token_injection :
    build_rows [tokenAcc] = Except.ok c10Rows ∧
    ("\x7b\x7bstyle_href\x7d\x7d".data <:+: c10Rows.data) ∧
    render_html layout_template [tokenAcc] "T" "G" "STYLESHEET.css" =
      Except.ok c10Rendered ∧
    ("<div class=\"entry-name\">STYLESHEET.css</div>".data <:+:
      c10Rendered.data) ∧
    ¬ ("\x7b\x7bstyle_href\x7d\x7d".data <:+: c10Rendered.data) := by
  refine ⟨by rfl, by decide, by rfl, by decide, ?_⟩
  exact no_brace_not_infix _ _ (by decide) (by decide)

/-! ## Claim C4: the account list is sorted, stably, by the lowered keys -/

theorem clLe_refl (l : List Char) : clLe l l = true := by
  induction l with
  | nil => rfl
  | cons a as ih => simp [clLe, ih]

theorem clLe_total (a b : List Char) : clLe a b = true ∨ clLe b a = true := by
  induction a generalizing b with
  | nil => exact Or.inl rfl
  | cons a0 as ih =>
    cases b with
    | nil => exact Or.inr rfl
    | cons b0 bs =>
      rcases lt_trichotomy a0 b0 with h | h | h
      · exact Or.inl (by simp [clLe, h])
      · subst h
        rcases ih bs with h2 | h2
        · exact Or.inl (by simp [clLe, h2])
        · exact Or.inr (by simp [clLe, h2])
      · exact Or.inr (by simp [clLe, h])

theorem clLe_trans (a b c : List Char) (h1 : clLe a b = true)
    (h2 : clLe b c = true) : clLe a c = true := by
  induction a generalizing b c with
  | nil => rfl
  | cons a0 as ih =>
    cases b with
    | nil => simp [clLe] at h1
    | cons b0 bs =>
      cases c with
      | nil => simp [clLe] at h2
      | cons c0 cs =>
        simp only [clLe] at h1 h2 ⊢
        by_cases hab : a0 < b0
        · by_cases hbc : b0 < c0
          · simp [lt_trans hab hbc]
          · simp only [hbc, if_false] at h2
            by_cases hbc2 : b0 = c0
            · subst hbc2
              simp [hab]
            · simp [hbc2] at h2
        · simp only [hab, if_false] at h1
          by_cases hab2 : a0 = b0
          · subst hab2
            rw [if_pos rfl] at h1
            by_cases hbc : a0 < c0
            · simp [hbc]
            · simp only [hbc, if_false] at h2 ⊢
              by_cases hbc2 : a0 = c0
              · rw [if_pos hbc2] at h2 ⊢
                exact ih bs cs h1 h2
              · rw [if_neg hbc2] at h2
                exact absurd h2 (by simp)
          · rw [if_neg hab2] at h1
            exact absurd h1 (by simp)

theorem clLe_antisymm (a b : List Char) (h1 : clLe a b = true)
    (h2 : clLe b a = true) : a = b := by
  induction a generalizing b with
  | nil =>
    cases b with
    | nil => rfl
    | cons b0 bs => simp [clLe] at h2
  | cons a0 as ih =>
    cases b with
    | nil => simp [clLe] at h1
    | cons b0 bs =>
      simp only [clLe] at h1 h2
      by_cases hab : a0 < b0
      · have hba : ¬ b0 < a0 := lt_asymm hab
        have hne : ¬ b0 = a0 := fun h => (lt_irrefl a0 (h ▸ hab))
        simp [hba, hne] at h2
      · rw [if_neg hab] at h1
        by_cases hab2 : a0 = b0
        · subst hab2
          rw [if_pos rfl] at h1
          rw [if_neg (lt_irrefl a0), if_pos rfl] at h2
          rw [ih bs h1 h2]
        · rw [if_neg hab2] at h1
          exact absurd h1 (by simp)

theorem strLe_refl (s : String) : strLe s s = true := clLe_refl s.data

theorem strLe_total (s t : String) : strLe s t = true ∨ strLe t s = true :=
  clLe_total s.data t.data

theorem strLe_trans (s t u : String) (h1 : strLe s t = true)
    (h2 : strLe t u = true) : strLe s u = true := clLe_trans _ _ _ h1 h2

theorem strLe_antisymm (s t : String) (h1 : strLe s t = true)
    (h2 : strLe t s = true) : s = t := by
  cases s with
  | mk a => cases t with
    | mk b => exact congrArg String.mk (clLe_antisymm a b h1 h2)

theorem keyLe_refl (a : String × String) : keyLe a a = true := by
  simp [keyLe, strLe_refl]

theorem keyLe_total (a b : String × String) :
    keyLe a b = true ∨ keyLe b a = true := by
  unfold keyLe
  by_cases h : a.1 = b.1
  · simp only [h, if_true]
    simpa [h] using strLe_total a.2 b.2
  · have h2 : ¬ b.1 = a.1 := fun e => h e.symm
    simp only [h, h2, if_false]
    exact strLe_total a.1 b.1

theorem keyLe_trans (a b c : String × String) (h1 : keyLe a b = true)
    (h2 : keyLe b c = true) : keyLe a c = true := by
  unfold keyLe at h1 h2 ⊢
  by_cases hab : a.1 = b.1
  · by_cases hbc : b.1 = c.1
    · have hac : a.1 = c.1 := hab.trans hbc
      rw [if_pos hab] at h1
      rw [if_pos hbc] at h2
      rw [if_pos hac]
      exact strLe_trans _ _ _ h1 h2
    · have hac : ¬ a.1 = c.1 := fun e => hbc (hab ▸ e)
      rw [if_neg hbc] at h2
      rw [if_neg hac, hab]
      exact h2
  · by_cases hbc : b.1 = c.1
    · have hac : ¬ a.1 = c.1 := fun e => hab (e.trans hbc.symm)
      rw [if_neg hab] at h1
      rw [if_neg hac, ← hbc]
      exact h1
    · rw [if_neg hab] at h1
      rw [if_neg hbc] at h2
      by_cases hac : a.1 = c.1
      · exfalso
        have h2' : strLe b.1 a.1 = true := by rw [← hac] at h2; exact h2
        exact hab (strLe_antisymm _ _ h1 h2')
      · rw [if_neg hac]
        exact strLe_trans _ _ _ h1 h2

theorem accLe_refl (a : Account) : accLe a a = true := keyLe_refl _

theorem accLe_total (a b : Account) : accLe a b = true ∨ accLe b a = true :=
  keyLe_total _ _

theorem accLe_trans (a b c : Account) (h1 : accLe a b = true)
    (h2 : accLe b c = true) : accLe a c = true := keyLe_trans _ _ _ h1 h2

theorem mem_insertLe (le : α → α → Bool) (x z : α) (l : List α) :
    z ∈ insertLe le x l ↔ z = x ∨ z ∈ l := by
  induction l with
  | nil => simp [insertLe]
  | cons y ys ih =>
    by_cases h : le x y = true
    · simp [insertLe, h]
    · show z ∈ (if le x y = true then x :: y :: ys
        else y :: insertLe le x ys) ↔ _
      rw [if_neg h]
      simp only [List.mem_cons, ih]
      tauto

theorem pairwise_insertLe (le : α → α → Bool)
    (htot : ∀ a b, le a b = true ∨ le b a = true)
    (htrans : ∀ a b c, le a b = true → le b c = true → le a c = true)
    (x : α) (l : List α) (hl : l.Pairwise (fun a b => le a b = true)) :
    (insertLe le x l).Pairwise (fun a b => le a b = true) := by
  induction l with
  | nil => simp [insertLe]
  | cons y ys ih =>
    rcases List.pairwise_cons.mp hl with ⟨hy, hys⟩
    by_cases h : le x y = true
    · simp only [insertLe, h, if_true]
      refine List.pairwise_cons.mpr ⟨?_, hl⟩
      intro z hz
      rcases List.mem_cons.mp hz with hz | hz
      · exact hz ▸ h
      · exact htrans x y z h (hy z hz)
    · simp only [insertLe, h, if_false]
      refine List.pairwise_cons.mpr ⟨?_, ih hys⟩
      intro z hz
      rcases (mem_insertLe le x z ys).mp hz with hz | hz
      · subst hz
        rcases htot z y with h2 | h2
        · exact absurd h2 h
        · exact h2
      · exact hy z hz

theorem filter_insertLe_pos (le : α → α → Bool) (p : α → Bool) (x : α)
    (l : List α) (hx : p x = true)
    (hall : ∀ y, p y = true → le x y = true) :
    (insertLe le x l).filter p = x :: l.filter p := by
  induction l with
  | nil => simp [insertLe, hx]
  | cons y ys ih =>
    by_cases h : le x y = true
    · simp [insertLe, h, hx]
    · have hpy : p y = false := by
        cases hy : p y with
        | false => rfl
        | true => exact absurd (hall y hy) h
      simp [insertLe, h, List.filter_cons, hpy, ih]

theorem filter_insertLe_neg (le : α → α → Bool) (p : α → Bool) (x : α)
    (l : List α) (hx : p x = false) :
    (insertLe le x l).filter p = l.filter p := by
  induction l with
  | nil => simp [insertLe, hx]
  | cons y ys ih =>
    by_cases h : le x y = true
    · simp [insertLe, h, List.filter_cons, hx]
    · simp [insertLe, h, List.filter_cons, ih]

theorem pairwise_stableSort (le : α → α → Bool)
    (htot : ∀ a b, le a b = true ∨ le b a = true)
    (htrans : ∀ a b c, le a b = true → le b c = true → le a c = true)
    (l : List α) :
    (stableSort le l).Pairwise (fun a b => le a b = true) := by
  induction l with
  | nil => simp [stableSort]
  | cons a l ih =>
    exact pairwise_insertLe le htot htrans a (stableSort le l) ih

/-- Stability of the insertion sort: the subsequence at any key class is
untouched, for any predicate whose holders are mutually `le`-related. -/
theorem filter_stableSort (le : α → α → Bool) (p : α → Bool)
    (hp : ∀ a b, p a = true → p b = true → le a b = true) (l : List α) :
    (stableSort le l).filter p = l.filter p := by
  induction l with
  | nil => rfl
  | cons a l ih =>
    show (insertLe le a (stableSort le l)).filter p = _
    by_cases ha : p a = true
    · rw [filter_insertLe_pos le p a (stableSort le l) ha
        (fun y hy => hp a y ha hy), ih, List.filter_cons, ha]
      simp
    · have ha' : p a = false := by simpa using ha
      rw [filter_insertLe_neg le p a (stableSort le l) ha', ih,
        List.filter_cons, ha']
      simp

/-- C4: the account list produced by `collect_accounts` is sorted ascending
by the pair `(folder.lower(), name.lower())` — Python tuple order, ties on
the folder broken by the name — and the sort is stable: for every key, the
subsequence of records carrying that key is exactly the subsequence of the
unsorted (original item order) list `pre`. -/
theorem collect_accounts_sorted (payload : Json) (pre accs : List Account)
    (hcore : collect_core payload = Except.ok pre)
    (hacc : collect_accounts payload = Except.ok accs) :
    accs.Pairwise (fun A B => keyLe (sortKey A) (sortKey B) = true) ∧
    (∀ K : String × String,
      accs.filter (fun a => sortKey a == K) =
        pre.filter (fun a => sortKey a == K)) := by
  have heq : stableSort accLe pre = accs := by
    unfold collect_accounts at hacc
    rw [hcore] at hacc
    simpa using hacc
  constructor
  · rw [← heq]
    exact pairwise_stableSort accLe accLe_total accLe_trans pre
  · intro K
    rw [← heq]
    apply filter_stableSort
    intro a b ha hb
    have ha' : sortKey a = K := by simpa using ha
    have hb' : sortKey b = K := by simpa using hb
    show keyLe (sortKey a) (sortKey b) = true
    rw [ha', hb']
    exact keyLe_refl K

/-- Two items in reverse alphabetical order. -/
def twoDoc : Json :=
  Json.obj [("items", Json.arr [Json.obj [("name", Json.str "Beta")],
    Json.obj [("name", Json.str "Alpha")]])]

def accAlpha : Account :=
  { name := "Alpha"
    type := "Unknown"
    folder := "No folder"
    favorite := false
    username := Json.str ""
    password := Json.str ""
    totp := Json.str ""
    uris := []
    notes := Json.str ""
    last_modified := ""
    created := ""
    fields := [] }

def accBeta : Account :=
  { name := "Beta"
    type := "Unknown"
    folder := "No folder"
    favorite := false
    username := Json.str ""
    password := Json.str ""
    totp := Json.str ""
    uris := []
    notes := Json.str ""
    last_modified := ""
    created := ""
    fields := [] }

/-- Witness for C4: the two out-of-order items come back sorted, and the
key-class subsequences agree with the original item order. -/
theorem collect_accounts_sorted_witness :
    ([accAlpha, accBeta] : List Account).Pairwise
      (fun A B => keyLe (sortKey A) (sortKey B) = true) ∧
    ([accAlpha, accBeta] : List Account).filter
        (fun a => sortKey a == ("no folder", "alpha")) =
      ([accBeta, accAlpha] : List Account).filter
        (fun a => sortKey a == ("no folder", "alpha")) :=
  ⟨(collect_accounts_sorted twoDoc [accBeta, accAlpha] [accAlpha, accBeta]
      (by rfl) (by rfl)).1,
   (collect_accounts_sorted twoDoc [accBeta, accAlpha] [accAlpha, accBeta]
      (by rfl) (by rfl)).2 ("no folder", "alpha")⟩

/-! ## Claim C2: normalization robustness -/

/-- The claim fails as stated: an items entry that is not a JSON object
(here the bare string `"oops"`) makes `collect_accounts` raise — Python
evaluates `item.get("login")` on a `str`, an `AttributeError`
(src/main.py:88). -/
theorem collect_accounts_raises :
    collect_accounts (Json.obj [("items", Json.arr [Json.str "oops"])]) =
      Except.error PyErr.attrError := by rfl

/-- A value Python may feed to `.lower()`/`.replace()`-style string handling
without raising: either an actual string, or falsy (in which case the
`or`-defaults step in first). -/
def strOrFalsy (v : Json) : Bool :=
  match v with
  | Json.str _ => true
  | _ => !truthy v

def isObjJ : Json → Bool
  | Json.obj _ => true
  | _ => false

/-- Well-formedness of one folder entry: a JSON object whose `id` is
hashable and whose `name`, when truthy, is a string. -/
def wfFolder (f : Json) : Bool :=
  match f with
  | Json.obj kvs => hashable (jlookup kvs "id") && strOrFalsy (jlookup kvs "name")
  | _ => false

/-- The `uris` value reachable from a well-formed login: absent, or a list. -/
def wfUris (login : Json) : Bool :=
  match login with
  | Json.obj kvs =>
    (match kvs.reverse.find? (fun p => p.1 == "uris") with
     | some p => (match p.2 with
        | Json.arr _ => true
        | _ => false)
     | none => true)
  | _ => true

/-- Well-formedness of one item: a JSON object whose present scalar fields
have the schema's types; absent, null and otherwise falsy values are all
allowed (they degrade to the documented defaults). -/
def wfItem (item : Json) : Bool :=
  match item with
  | Json.obj kvs =>
    strOrFalsy (jlookup kvs "name") &&
    hashable (jlookup kvs "type") &&
    hashable (jlookup kvs "folderId") &&
    (!truthy (jlookup kvs "login") || isObjJ (jlookup kvs "login")) &&
    wfUris (jlookup kvs "login") &&
    (!truthy (jlookup kvs "fields") ||
      (match jlookup kvs "fields" with
       | Json.arr fs => fs.all isObjJ
       | _ => false)) &&
    strOrFalsy (jlookup kvs "revisionDate") &&
    strOrFalsy (jlookup kvs "lastRevisionDate") &&
    strOrFalsy (jlookup kvs "creationDate")
  | _ => false

/-- Well-formedness of an export document: a JSON object whose `folders`
and `items` entries, when present, are lists of well-formed entries. -/
def wfDoc (payload : Json) : Bool :=
  match payload with
  | Json.obj kvs =>
    (match kvs.reverse.find? (fun p => p.1 == "folders") with
     | some p => (match p.2 with
        | Json.arr fs => fs.all wfFolder
        | _ => false)
     | none => true) &&
    (match kvs.reverse.find? (fun p => p.1 == "items") with
     | some p => (match p.2 with
        | Json.arr items => items.all wfItem
        | _ => false)
     | none => true)
  | _ => false

theorem okBind (a : α) (f : α → Except PyErr β) :
    (Except.ok a : Except PyErr α) >>= f = f a := rfl

theorem jget_obj (kvs : List (String × Json)) (k : String) :
    jget (Json.obj kvs) k = Except.ok (jlookup kvs k) := rfl

theorem pyIter_arr (xs : List Json) : pyIter (Json.arr xs) = Except.ok xs := rfl

theorem strOrFalsy_truthy (v : Json) (h : strOrFalsy v = true)
    (ht : truthy v = true) : ∃ s, v = Json.str s := by
  cases v with
  | str s => exact ⟨s, rfl⟩
  | null => simp [truthy] at ht
  | bool b =>
    simp [strOrFalsy, truthy] at h
    simp [truthy, h] at ht
  | num n =>
    simp [strOrFalsy, truthy] at h
    simp [truthy, h] at ht
  | arr l =>
    simp [strOrFalsy, truthy] at h
    simp [truthy, h] at ht
  | obj l =>
    simp [strOrFalsy, truthy] at h
    simp [truthy, h] at ht

theorem asStr_orDefault (v : Json) (d : String) (h : strOrFalsy v = true) :
    ∃ s, asStr (if truthy v then v else Json.str d) = Except.ok s := by
  by_cases ht : truthy v = true
  · obtain ⟨s, rfl⟩ := strOrFalsy_truthy v h ht
    exact ⟨s, by simp [ht, asStr]⟩
  · have ht' : truthy v = false := by simpa using ht
    exact ⟨d, by simp [ht', asStr]⟩

theorem normalize_datetime_ok (v : Json) (h : strOrFalsy v = true) :
    ∃ s, normalize_datetime v = Except.ok s := by
  by_cases ht : truthy v = true
  · obtain ⟨s, rfl⟩ := strOrFalsy_truthy v h ht
    cases hp : parseIso (pyReplaceS s "Z" "+00:00").data with
    | some dt => exact ⟨strftimeUS dt, by simp [normalize_datetime, ht, hp]⟩
    | none => exact ⟨s, by simp [normalize_datetime, ht, hp]⟩
  · have ht' : truthy v = false := by simpa using ht
    exact ⟨"", by simp [normalize_datetime, ht']⟩

theorem dictLookup_cases (folders : List (Json × Json)) (fid : Json) :
    dictLookup folders fid = Json.null ∨
      ∃ p ∈ folders, dictLookup folders fid = p.2 := by
  unfold dictLookup
  cases hfind : folders.reverse.find? (fun p => pyKeyEq p.1 fid) with
  | none => exact Or.inl rfl
  | some p =>
    refine Or.inr ⟨p, ?_, rfl⟩
    have := List.mem_of_find?_eq_some hfind
    exact (List.mem_reverse).mp this

theorem resolveFolder_str (folders : List (Json × Json))
    (hf : ∀ p ∈ folders, strOrFalsy p.2 = true) (fid : Json) :
    ∃ s, asStr (resolveFolder folders fid) = Except.ok s := by
  by_cases ht : truthy (dictLookup folders fid) = true
  · rcases dictLookup_cases folders fid with h0 | ⟨p, hp, hv⟩
    · rw [h0] at ht
      simp [truthy] at ht
    · have hsf : strOrFalsy (dictLookup folders fid) = true := hv ▸ hf p hp
      obtain ⟨s, hs⟩ := strOrFalsy_truthy _ hsf ht
      refine ⟨s, ?_⟩
      show asStr (if truthy (dictLookup folders fid) = true then
        dictLookup folders fid else Json.str "No folder") = Except.ok s
      rw [hs] at ht ⊢
      rw [if_pos ht]
      rfl
  · have ht' : truthy (dictLookup folders fid) = false := by simpa using ht
    refine ⟨"No folder", ?_⟩
    show asStr (if truthy (dictLookup folders fid) = true then
      dictLookup folders fid else Json.str "No folder") = Except.ok "No folder"
    rw [ht']
    rfl

theorem customFieldStep_ok (acc : List String) (field : Json)
    (h : isObjJ field = true) : ∃ r, customFieldStep acc field = Except.ok r := by
  cases field with
  | obj kvs =>
    by_cases hv : truthy (jlookup kvs "value") = true
    · exact ⟨acc ++ [pyStr (if truthy (jlookup kvs "name") = true then
        jlookup kvs "name" else Json.str "Field") ++ ": " ++
        pyStr (jlookup kvs "value")],
        by simp [customFieldStep, jget_obj, okBind, hv]⟩
    · have hv' : truthy (jlookup kvs "value") = false := by simpa using hv
      exact ⟨acc, by simp [customFieldStep, jget_obj, okBind, hv']⟩
  | null => simp [isObjJ] at h
  | bool b => simp [isObjJ] at h
  | num n => simp [isObjJ] at h
  | str s => simp [isObjJ] at h
  | arr l => simp [isObjJ] at h

theorem foldlM_fields_ok (fs : List Json) (h : fs.all isObjJ = true) :
    ∀ acc : List String, ∃ r, fs.foldlM customFieldStep acc = Except.ok r := by
  induction fs with
  | nil => exact fun acc => ⟨acc, rfl⟩
  | cons f fs ih =>
    intro acc
    rw [List.all_cons, Bool.and_eq_true] at h
    obtain ⟨r1, h1⟩ := customFieldStep_ok acc f h.1
    obtain ⟨r2, h2⟩ := ih h.2 r1
    exact ⟨r2, by rw [List.foldlM_cons, h1, okBind, h2]⟩

/-- `mapM` over `Except` succeeds when every element does, and every output
satisfies what the per-element outputs satisfy. -/
theorem mapM_ok {α β : Type} (f : α → Except PyErr β) (P : β → Prop)
    (l : List α) (h : ∀ x ∈ l, ∃ y, f x = Except.ok y ∧ P y) :
    ∃ ys, l.mapM f = Except.ok ys ∧ ∀ y ∈ ys, P y := by
  induction l with
  | nil => exact ⟨[], rfl, by simp⟩
  | cons a l ih =>
    obtain ⟨y, hy, hPy⟩ := h a (List.mem_cons_self a l)
    obtain ⟨ys, hys, hPys⟩ := ih (fun x hx => h x (List.mem_cons_of_mem a hx))
    refine ⟨y :: ys, ?_, ?_⟩
    · rw [List.mapM_cons, hy, okBind, hys]
      rfl
    · intro z hz
      rcases List.mem_cons.mp hz with hz | hz
      · exact hz ▸ hPy
      · exact hPys z hz

theorem pure_eq_ok (a : α) : (pure a : Except PyErr α) = Except.ok a := rfl

theorem process_item_ok (folders : List (Json × Json))
    (hf : ∀ p ∈ folders, strOrFalsy p.2 = true) (item : Json)
    (hi : wfItem item = true) :
    ∃ a, process_item folders item = Except.ok a := by
  cases item with
  | null => simp [wfItem] at hi
  | bool b => simp [wfItem] at hi
  | num n => simp [wfItem] at hi
  | str s => simp [wfItem] at hi
  | arr l => simp [wfItem] at hi
  | obj kvs =>
    simp only [wfItem, Bool.and_eq_true] at hi
    obtain ⟨⟨⟨⟨⟨⟨⟨⟨hname, htype⟩, hfid⟩, hlogin⟩, huris⟩, hfields⟩, hrv⟩,
      hlrv⟩, hcv⟩ := hi
    obtain ⟨lkvs, hlg⟩ : ∃ lkvs,
        (if truthy (jlookup kvs "login") = true then jlookup kvs "login"
          else Json.obj []) = Json.obj lkvs := by
      by_cases ht : truthy (jlookup kvs "login") = true
      · rw [ht, Bool.not_true, Bool.false_or] at hlogin
        cases hL : jlookup kvs "login" with
        | obj lkvs =>
          refine ⟨lkvs, ?_⟩
          rw [hL] at ht
          rw [if_pos ht]
        | null => rw [hL] at hlogin; simp [isObjJ] at hlogin
        | bool b => rw [hL] at hlogin; simp [isObjJ] at hlogin
        | num n => rw [hL] at hlogin; simp [isObjJ] at hlogin
        | str s => rw [hL] at hlogin; simp [isObjJ] at hlogin
        | arr l => rw [hL] at hlogin; simp [isObjJ] at hlogin
      · exact ⟨[], by rw [if_neg ht]⟩
    obtain ⟨us, hus⟩ : ∃ us,
        jgetD (Json.obj lkvs) "uris" (Json.arr []) =
          Except.ok (Json.arr us) := by
      by_cases ht : truthy (jlookup kvs "login") = true
      · have hL : jlookup kvs "login" = Json.obj lkvs := by
          rw [if_pos ht] at hlg
          exact hlg
        rw [hL] at huris
        simp only [wfUris] at huris
        cases hfind : lkvs.reverse.find? (fun p => p.1 == "uris") with
        | none =>
          refine ⟨[], ?_⟩
          simp [jgetD, hfind]
        | some p =>
          rw [hfind] at huris
          cases hp2 : p.2 with
          | arr us =>
            refine ⟨us, ?_⟩
            simp [jgetD, hfind, hp2]
          | null => simp [hp2] at huris
          | bool b => simp [hp2] at huris
          | num n => simp [hp2] at huris
          | str s => simp [hp2] at huris
          | obj l => simp [hp2] at huris
      · have h0 : Json.obj [] = Json.obj lkvs := by
          rw [if_neg ht] at hlg
          exact hlg
        have h1 : lkvs = [] := by
          injection h0 with h
          exact h.symm
        subst h1
        exact ⟨[], by simp [jgetD]⟩
    obtain ⟨fs, hfs, hfsall⟩ : ∃ fs,
        (if truthy (jlookup kvs "fields") = true then jlookup kvs "fields"
          else Json.arr []) = Json.arr fs ∧ fs.all isObjJ = true := by
      by_cases ht : truthy (jlookup kvs "fields") = true
      · rw [ht, Bool.not_true, Bool.false_or] at hfields
        cases hF : jlookup kvs "fields" with
        | arr fs =>
          refine ⟨fs, ?_, ?_⟩
          · rw [hF] at ht
            rw [if_pos ht]
          · rw [hF] at hfields
            simpa using hfields
        | null => simp [hF] at hfields
        | bool b => simp [hF] at hfields
        | num n => simp [hF] at hfields
        | str s => simp [hF] at hfields
        | obj l => simp [hF] at hfields
      · exact ⟨[], by rw [if_neg ht], rfl⟩
    obtain ⟨cf, hcf⟩ := foldlM_fields_ok fs hfsall []
    obtain ⟨nm, hnm⟩ := asStr_orDefault (jlookup kvs "name") "(untitled)" hname
    obtain ⟨fo, hfo⟩ := resolveFolder_str folders hf (jlookup kvs "folderId")
    have hlmv : strOrFalsy (if truthy (jlookup kvs "revisionDate") = true then
        jlookup kvs "revisionDate" else jlookup kvs "lastRevisionDate") = true := by
      by_cases ht : truthy (jlookup kvs "revisionDate") = true
      · rw [if_pos ht]
        exact hrv
      · rw [if_neg ht]
        exact hlrv
    obtain ⟨lm, hlm⟩ := normalize_datetime_ok _ hlmv
    obtain ⟨cr, hcr⟩ := normalize_datetime_ok (jlookup kvs "creationDate") hcv
    apply Exists.intro
    simp only [process_item, jget_obj, okBind, hlg, hus, pyIter_arr, hfs,
      hcf, hnm, htype, hfid, hfo, hlm, hcr, pure_eq_ok, if_true]
    rfl

/-- C2 (amended): normalization is total on well-formed documents — absent,
null and otherwise falsy values everywhere degrade to the documented
defaults rather than raising. -/
theorem collect_accounts_total (payload : Json) (h : wfDoc payload = true) :
    ∃ accounts, collect_accounts payload = Except.ok accounts := by
  cases payload with
  | null => simp [wfDoc] at h
  | bool b => simp [wfDoc] at h
  | num n => simp [wfDoc] at h
  | str s => simp [wfDoc] at h
  | arr l => simp [wfDoc] at h
  | obj kvs =>
    simp only [wfDoc, Bool.and_eq_true] at h
    obtain ⟨hfolders, hitems⟩ := h
    obtain ⟨fs, hfsv, hfsall⟩ : ∃ fs,
        jgetD (Json.obj kvs) "folders" (Json.arr []) =
          Except.ok (Json.arr fs) ∧ fs.all wfFolder = true := by
      cases hfind : kvs.reverse.find? (fun p => p.1 == "folders") with
      | none => exact ⟨[], by simp [jgetD, hfind], rfl⟩
      | some p =>
        cases hp2 : p.2 with
        | arr fs =>
          refine ⟨fs, by simp [jgetD, hfind, hp2], ?_⟩
          rw [hfind] at hfolders
          simpa [hp2] using hfolders
        | null => rw [hfind] at hfolders; simp [hp2] at hfolders
        | bool b => rw [hfind] at hfolders; simp [hp2] at hfolders
        | num n => rw [hfind] at hfolders; simp [hp2] at hfolders
        | str s => rw [hfind] at hfolders; simp [hp2] at hfolders
        | obj l => rw [hfind] at hfolders; simp [hp2] at hfolders
    obtain ⟨F, hF, hFP⟩ : ∃ F,
        fs.mapM (fun folder => do
          let fid ← jget folder "id"
          let name ← jgetD folder "name" (Json.str "")
          if hashable fid then pure (fid, name) else throw PyErr.typeError) =
            Except.ok F ∧ ∀ p ∈ F, strOrFalsy p.2 = true := by
      apply mapM_ok
      intro folder hmem
      have hwf : wfFolder folder = true := by
        rw [List.all_eq_true] at hfsall
        exact hfsall folder hmem
      cases folder with
      | obj fkvs =>
        simp only [wfFolder, Bool.and_eq_true] at hwf
        obtain ⟨hid, hnm⟩ := hwf
        cases hfind2 : fkvs.reverse.find? (fun p => p.1 == "name") with
        | some q =>
          refine ⟨(jlookup fkvs "id", q.2), ?_, ?_⟩
          · simp [jget_obj, okBind, jgetD, hfind2, hid, pure_eq_ok]
          · have : jlookup fkvs "name" = q.2 := by simp [jlookup, hfind2]
            rw [this] at hnm
            exact hnm
        | none =>
          refine ⟨(jlookup fkvs "id", Json.str ""), ?_, rfl⟩
          simp [jget_obj, okBind, jgetD, hfind2, hid, pure_eq_ok]
      | null => simp [wfFolder] at hwf
      | bool b => simp [wfFolder] at hwf
      | num n => simp [wfFolder] at hwf
      | str s => simp [wfFolder] at hwf
      | arr l => simp [wfFolder] at hwf
    obtain ⟨its, hitsv, hitsall⟩ : ∃ its,
        jgetD (Json.obj kvs) "items" (Json.arr []) =
          Except.ok (Json.arr its) ∧ its.all wfItem = true := by
      cases hfind : kvs.reverse.find? (fun p => p.1 == "items") with
      | none => exact ⟨[], by simp [jgetD, hfind], rfl⟩
      | some p =>
        cases hp2 : p.2 with
        | arr its =>
          refine ⟨its, by simp [jgetD, hfind, hp2], ?_⟩
          rw [hfind] at hitems
          simpa [hp2] using hitems
        | null => rw [hfind] at hitems; simp [hp2] at hitems
        | bool b => rw [hfind] at hitems; simp [hp2] at hitems
        | num n => rw [hfind] at hitems; simp [hp2] at hitems
        | str s => rw [hfind] at hitems; simp [hp2] at hitems
        | obj l => rw [hfind] at hitems; simp [hp2] at hitems
    obtain ⟨accs, haccs, _⟩ : ∃ accs,
        its.mapM (process_item F) = Except.ok accs ∧ ∀ a ∈ accs, True := by
      apply mapM_ok
      intro item hmem
      have hwf : wfItem item = true := by
        rw [List.all_eq_true] at hitsall
        exact hitsall item hmem
      obtain ⟨a, ha⟩ := process_item_ok F hFP item hwf
      exact ⟨a, ha, trivial⟩
    refine ⟨stableSort accLe accs, ?_⟩
    simp only [pure_eq_ok] at hF
    simp only [collect_accounts, collect_core, build_folders, hfsv, okBind,
      pyIter_arr, hF, hitsv, haccs, pure_eq_ok]

/-- A well-formed document exercising absent and null values. -/
def mixedDoc : Json :=
  Json.obj [("folders", Json.arr [Json.obj [("id", Json.str "f1")]]),
    ("items", Json.arr
      [Json.obj [("name", Json.str "A"), ("login", Json.null)],
       Json.obj [("name", Json.null), ("type", Json.num 9),
         ("folderId", Json.str "f1"),
         ("fields", Json.arr [Json.obj [("value", Json.str "v")]])]])]

/-- Witness for C2's amended theorem on a document full of absent and null
values. -/
theorem collect_accounts_total_witness :
    ∃ accounts, collect_accounts mixedDoc = Except.ok accounts :=
  collect_accounts_total mixedDoc (by rfl)

/-! ## Claim C1: user-controlled content cannot inject markup -/

theorem pyReplace_single (c : Char) (r l : List Char) :
    pyReplace [c] r l = l.flatMap (fun a => if a = c then r else [a]) := by
  induction l with
  | nil => simp [pyReplace_nil]
  | cons a rest ih =>
    rw [pyReplace_cons]
    by_cases h : a = c
    · subst h
      have hpre : [a].isPrefixOf (a :: rest) = true := by
        simp [List.isPrefixOf]
      simp [hpre, ih]
    · have hpre : [c].isPrefixOf (a :: rest) = false := by
        simp only [List.isPrefixOf, Bool.and_eq_false_iff]
        left
        simp [beq_eq_false_iff_ne]
        exact fun e => h e.symm
      simp [hpre, ih, h]

/-- The per-character effect of `html.escape`. -/
def escChar (c : Char) : List Char :=
  if c = '&' then "&amp;".data
  else if c = '<' then "&lt;".data
  else if c = '>' then "&gt;".data
  else if c = '"' then "&quot;".data
  else if c = '\'' then "&#x27;".data
  else [c]

theorem escChain (a : Char) :
    (((((if a = '&' then "&amp;".data else [a]).flatMap
      (fun x => if x = '<' then "&lt;".data else [x])).flatMap
      (fun x => if x = '>' then "&gt;".data else [x])).flatMap
      (fun x => if x = '"' then "&quot;".data else [x])).flatMap
      (fun x => if x = '\'' then "&#x27;".data else [x])) = escChar a := by
  by_cases h1 : a = '&'
  · subst h1
    rfl
  · by_cases h2 : a = '<'
    · subst h2
      rfl
    · by_cases h3 : a = '>'
      · subst h3
        rfl
      · by_cases h4 : a = '"'
        · subst h4
          rfl
        · by_cases h5 : a = '\''
          · subst h5
            rfl
          · simp [escChar, h1, h2, h3, h4, h5]

theorem escape_data (s : String) :
    (escape s).data = s.data.flatMap escChar := by
  show pyReplace "'".data "&#x27;".data
      (pyReplace "\"".data "&quot;".data
        (pyReplace ">".data "&gt;".data
          (pyReplace "<".data "&lt;".data
            (pyReplace "&".data "&amp;".data s.data)))) = _
  rw [show ("&".data : List Char) = ['&'] from rfl,
    show ("<".data : List Char) = ['<'] from rfl,
    show (">".data : List Char) = ['>'] from rfl,
    show ("\"".data : List Char) = ['"'] from rfl,
    show ("'".data : List Char) = ['\''] from rfl]
  rw [pyReplace_single, pyReplace_single, pyReplace_single, pyReplace_single,
    pyReplace_single]
  induction s.data with
  | nil => rfl
  | cons a rest ih =>
    simp only [List.flatMap_cons, List.flatMap_append]
    rw [ih, escChain]

theorem escape_no_specials (s : String) :
    '<' ∉ (escape s).data ∧ '>' ∉ (escape s).data ∧
    '"' ∉ (escape s).data ∧ '\'' ∉ (escape s).data := by
  have hall : ∀ a : Char, '<' ∉ escChar a ∧ '>' ∉ escChar a ∧
      '"' ∉ escChar a ∧ '\'' ∉ escChar a := by
    intro a
    unfold escChar
    by_cases h1 : a = '&'
    · simp [h1]
    · by_cases h2 : a = '<'
      · simp [h1, h2]
      · by_cases h3 : a = '>'
        · simp [h1, h2, h3]
        · by_cases h4 : a = '"'
          · simp [h1, h2, h3, h4]
          · by_cases h5 : a = '\''
            · simp [h1, h2, h3, h4, h5]
            · simp [h1, h2, h3, h4, h5]
              refine ⟨fun e => h2 e.symm, fun e => h3 e.symm,
                fun e => h4 e.symm, fun e => h5 e.symm⟩
  rw [escape_data]
  refine ⟨?_, ?_, ?_, ?_⟩ <;>
    · intro hmem
      rw [List.mem_flatMap] at hmem
      obtain ⟨a, _, hin⟩ := hmem
      rcases hall a with ⟨g1, g2, g3, g4⟩
      first
        | exact g1 hin
        | exact g2 hin
        | exact g3 hin
        | exact g4 hin

/-- Characters that may legitimately follow `<` in the fixed markup skeleton
(tag names `table`, `tbody`, `td`, `tr`, `div`, `p`, `html`, `head`,
`title`, `link`, `body` and closing `/`). -/
def goodC (c : Char) : Bool :=
  c = 't' || c = 'd' || c = 'p' || c = 'h' || c = 'l' || c = 'b' || c = '/'

/-- Lookahead after a `<`: the next characters must open one of the
skeleton's tags — in particular `<s` must continue as `<span`. -/
def lookOk : List Char → Bool
  | [] => false
  | c :: rest2 =>
    if c = 's' then
      (match rest2 with
       | [] => false
       | d :: _ => d = 'p')
    else goodC c

/-- The central text invariant: every `<` is immediately followed by a
skeleton tag opener (and `<s` by `<sp`), so no `<sc` — in particular no
`<script` — can occur, and the text cannot end in a dangling `<` or `<s`. -/
def okA : List Char → Bool
  | [] => true
  | c :: rest => (if c = '<' then lookOk rest else true) && okA rest

theorem okA_cons (c : Char) (rest : List Char) :
    okA (c :: rest) = ((if c = '<' then lookOk rest else true) && okA rest) :=
  rfl

theorem lookOk_append (t b : List Char) (h : lookOk t = true) :
    lookOk (t ++ b) = true := by
  cases t with
  | nil => simp [lookOk] at h
  | cons c rest2 =>
    by_cases hcs : c = 's'
    · subst hcs
      simp only [lookOk, if_pos rfl] at h ⊢
      cases rest2 with
      | nil => simp at h
      | cons d r3 => simpa using h
    · show lookOk (c :: (rest2 ++ b)) = true
      simp only [lookOk, hcs, if_false] at h ⊢
      exact h

theorem okA_append (a b : List Char) (ha : okA a = true) (hb : okA b = true) :
    okA (a ++ b) = true := by
  induction a with
  | nil => simpa using hb
  | cons c tail ih =>
    rw [okA_cons, Bool.and_eq_true] at ha
    rw [List.cons_append, okA_cons, Bool.and_eq_true]
    refine ⟨?_, ih ha.2⟩
    by_cases hc : c = '<'
    · rw [if_pos hc]
      rw [if_pos hc] at ha
      exact lookOk_append tail b ha.1
    · rw [if_neg hc]

theorem noLt_okA (l : List Char) (h : '<' ∉ l) : okA l = true := by
  induction l with
  | nil => rfl
  | cons c rest ih =>
    rw [okA_cons, Bool.and_eq_true]
    rw [List.mem_cons] at h
    push_neg at h
    refine ⟨by rw [if_neg (fun e => h.1 e.symm)], ih h.2⟩

theorem okA_suffix (a b : List Char) (h : okA (a ++ b) = true) :
    okA b = true := by
  induction a with
  | nil => simpa using h
  | cons c tail ih =>
    rw [List.cons_append, okA_cons, Bool.and_eq_true] at h
    exact ih h.2

theorem okA_drop (l : List Char) (n : Nat) (h : okA l = true) :
    okA (l.drop n) = true := by
  have := List.take_append_drop n l
  rw [← this] at h
  exact okA_suffix _ _ h

theorem okA_no_sc (l : List Char) (h : okA l = true) :
    ¬ (['<', 's', 'c'] <:+: l) := by
  rintro ⟨p, q, hl⟩
  have h2 : okA (['<', 's', 'c'] ++ q) = true := by
    rw [← hl, List.append_assoc] at h
    exact okA_suffix p _ h
  simp [okA_cons, lookOk] at h2

theorem pyReplace_head_of_ne (pat rep : List Char)
    (hpat : pat.head? = some '\x7b') (r0 : Char) (hne : r0 ≠ '\x7b')
    (r2 : List Char) :
    pyReplace pat rep (r0 :: r2) = r0 :: pyReplace pat rep r2 := by
  cases pat with
  | nil => simp at hpat
  | cons p0 ps =>
    have hp0 : p0 = '\x7b' := by simpa using hpat
    subst hp0
    rw [pyReplace_cons]
    have hpre : ('\x7b' :: ps).isPrefixOf (r0 :: r2) = false := by
      simp only [List.isPrefixOf, Bool.and_eq_false_iff]
      left
      simp [beq_eq_false_iff_ne]
      exact fun e => hne e.symm
    simp [hpre]

theorem lookOk_pyReplace (pat rep : List Char)
    (hpat : pat.head? = some '\x7b') (t : List Char) (h : lookOk t = true) :
    lookOk (pyReplace pat rep t) = true := by
  cases t with
  | nil => simp [lookOk] at h
  | cons r0 r2 =>
    by_cases hs : r0 = 's'
    · subst hs
      simp only [lookOk, if_pos rfl] at h
      obtain ⟨r3, rfl⟩ : ∃ r3, r2 = 'p' :: r3 := by
        cases r2 with
        | nil => simp at h
        | cons d r3 =>
          have : d = 'p' := by simpa using h
          exact ⟨r3, by rw [this]⟩
      rw [pyReplace_head_of_ne pat rep hpat 's' (by decide) _]
      rw [pyReplace_head_of_ne pat rep hpat 'p' (by decide) _]
      simp [lookOk]
    · have hg : goodC r0 = true := by simpa [lookOk, hs] using h
      have hne : r0 ≠ '\x7b' := by
        intro e
        rw [e] at hg
        simp [goodC] at hg
      rw [pyReplace_head_of_ne pat rep hpat r0 hne]
      simp only [lookOk, hs, if_false]
      exact hg

theorem okA_pyReplace (pat rep : List Char) (hpat : pat.head? = some '\x7b')
    (hrep : okA rep = true) :
    ∀ n l, l.length ≤ n → okA l = true →
      okA (pyReplace pat rep l) = true := by
  have hpatne : pat.isEmpty = false := by
    cases pat with
    | nil => simp at hpat
    | cons p0 ps => rfl
  have hpatlen : 1 ≤ pat.length := by
    cases pat with
    | nil => simp at hpat
    | cons p0 ps => simp
  intro n
  induction n with
  | zero =>
    intro l hl _
    have h0 : l = [] := by
      cases l with
      | nil => rfl
      | cons c r => simp at hl
    subst h0
    rw [pyReplace_nil, hpatne]
    rfl
  | succ n ih =>
    intro l hl hok
    cases l with
    | nil =>
      rw [pyReplace_nil, hpatne]
      rfl
    | cons c rest =>
      rw [pyReplace_cons]
      by_cases hpre : pat.isPrefixOf (c :: rest) = true
      · rw [hpre, hpatne]
        show okA (rep ++ pyReplace pat rep ((c :: rest).drop pat.length)) = true
        apply okA_append _ _ hrep
        apply ih
        · have h1 : ((c :: rest).drop pat.length).length =
              (rest.length + 1) - pat.length := by
            simp [List.length_drop]
          rw [h1]
          simp only [List.length_cons] at hl
          omega
        · exact okA_drop _ _ hok
      · have hpre' : pat.isPrefixOf (c :: rest) = false :=
          Bool.eq_false_iff.mpr hpre
        rw [hpre', hpatne]
        show okA (c :: pyReplace pat rep rest) = true
        have hokr : okA rest = true := by
          rw [okA_cons, Bool.and_eq_true] at hok
          exact hok.2
        have hR : okA (pyReplace pat rep rest) = true := by
          apply ih
          · simp only [List.length_cons] at hl
            omega
          · exact hokr
        rw [okA_cons, Bool.and_eq_true]
        refine ⟨?_, hR⟩
        by_cases hc : c = '<'
        · rw [if_pos hc]
          rw [okA_cons, Bool.and_eq_true, if_pos hc] at hok
          exact lookOk_pyReplace pat rep hpat rest hok.1
        · rw [if_neg hc]

theorem natStrAux_mem : ∀ (f n : Nat) (acc : List Char) (c : Char),
    c ∈ natStrAux f n acc → c ∈ acc ∨ ∃ k, k < 10 ∧ c = Char.ofNat (48 + k) := by
  intro f
  induction f with
  | zero =>
    intro n acc c hc
    cases n with
    | zero => exact Or.inl hc
    | succ m => exact Or.inl hc
  | succ f ih =>
    intro n acc c hc
    cases n with
    | zero => exact Or.inl hc
    | succ m =>
      have := ih ((m + 1) / 10) (Char.ofNat (48 + (m + 1) % 10) :: acc) c hc
      rcases this with hin | hk
      · rcases List.mem_cons.mp hin with he | hin2
        · exact Or.inr ⟨(m + 1) % 10, Nat.mod_lt _ (by omega), he⟩
        · exact Or.inl hin2
      · exact Or.inr hk

theorem natStr_no_lt (n : Nat) : '<' ∉ (natStr n).data := by
  unfold natStr
  by_cases h : n = 0
  · subst h
    decide
  · simp only [h, if_false]
    intro hmem
    rcases natStrAux_mem n n [] '<' hmem with hin | ⟨k, hk, he⟩
    · simp at hin
    · have : ∀ k, k < 10 → Char.ofNat (48 + k) ≠ '<' := by decide
      exact this k hk he.symm

theorem okA_pyJoin (sep : String) (hsep : okA sep.data = true) :
    ∀ parts : List String, (∀ p ∈ parts, okA p.data = true) →
      okA (pyJoin sep parts).data = true := by
  intro parts
  induction parts with
  | nil => intro _; rfl
  | cons x rest ih =>
    intro h
    cases rest with
    | nil => exact h x (by simp)
    | cons y rest2 =>
      show okA (x ++ sep ++ pyJoin sep (y :: rest2)).data = true
      rw [String.data_append, String.data_append]
      refine okA_append _ _ (okA_append _ _ ?_ hsep) ?_
      · exact h x (by simp)
      · exact ih (fun p hp => h p (List.mem_cons_of_mem x hp))

theorem pyEscapeJ_no_lt (v : Json) (s : String)
    (h : pyEscapeJ v = Except.ok s) : '<' ∉ s.data := by
  cases v with
  | str t =>
    have : s = escape t := by
      simp [pyEscapeJ] at h
      exact h.symm
    subst this
    exact (escape_no_specials t).1
  | null => simp [pyEscapeJ] at h
  | bool b => simp [pyEscapeJ] at h
  | num n => simp [pyEscapeJ] at h
  | arr l => simp [pyEscapeJ] at h
  | obj l => simp [pyEscapeJ] at h

theorem okA_tag_span (x : String) (hx : '<' ∉ x.data) :
    okA ("<span class=\"tag\">" ++ x ++ "</span>").data = true := by
  rw [String.data_append, String.data_append]
  exact okA_append _ _ (okA_append _ _ (by decide) (noLt_okA _ hx)) (by decide)

theorem render_meta_okA (e : Account) : okA (render_meta e).data = true := by
  unfold render_meta
  have hone : ∀ (c : Bool) (a t : String),
      t ∈ (if c = true then [a] else []) → t = a := by
    intro c a t ht
    cases c with
    | false => simp at ht
    | true => simpa using ht
  have htags : ∀ t ∈ ((if (e.folder != "" && pyLower e.folder != "no folder") =
        true then ["<span class=\"tag\">" ++ escape e.folder ++ "</span>"]
        else []) ++
      (if (e.type != "") = true then
        ["<span class=\"tag\">" ++ escape e.type ++ "</span>"] else []) ++
      (if e.favorite = true then
        ["<span class=\"tag tag--favorite\">Favorite</span>"] else [])),
      okA t.data = true := by
    intro t ht
    rw [List.mem_append, List.mem_append] at ht
    rcases ht with (h1 | h2) | h3
    · rw [hone _ _ _ h1]
      exact okA_tag_span _ (escape_no_specials e.folder).1
    · rw [hone _ _ _ h2]
      exact okA_tag_span _ (escape_no_specials e.type).1
    · rw [hone _ _ _ h3]
      decide
  generalize he : ((if (e.folder != "" && pyLower e.folder != "no folder") =
      true then ["<span class=\"tag\">" ++ escape e.folder ++ "</span>"]
      else []) ++
    (if (e.type != "") = true then
      ["<span class=\"tag\">" ++ escape e.type ++ "</span>"] else []) ++
    (if e.favorite = true then
      ["<span class=\"tag tag--favorite\">Favorite</span>"] else [])) = tags
  rw [he] at htags
  show okA (if tags.isEmpty = true then "<div class=\"entry-meta\">None</div>"
    else "<div class=\"entry-meta\">" ++ pyJoin "" tags ++ "</div>").data = true
  by_cases hemp : tags.isEmpty = true
  · rw [if_pos hemp]
    decide
  · rw [if_neg hemp]
    show okA ("<div class=\"entry-meta\">" ++ pyJoin "" tags ++ "</div>").data = true
    rw [String.data_append, String.data_append]
    refine okA_append _ _ (okA_append _ _ (by decide) ?_) (by decide)
    exact okA_pyJoin "" (by decide) tags htags

theorem errBind (e : PyErr) (f : α → Except PyErr β) :
    (Except.error e : Except PyErr α) >>= f = Except.error e := rfl

theorem okA_url_bit (p : String) (hp : '<' ∉ p.data) :
    okA ("<span>URL: " ++ p ++ "</span>").data = true := by
  rw [String.data_append, String.data_append]
  exact okA_append _ _ (okA_append _ _ (by decide) (noLt_okA _ hp)) (by decide)

theorem okA_totp_bit (p : String) (hp : '<' ∉ p.data) :
    okA ("<span>2FA: " ++ p ++ "</span>").data = true := by
  rw [String.data_append, String.data_append]
  exact okA_append _ _ (okA_append _ _ (by decide) (noLt_okA _ hp)) (by decide)

theorem render_credentials_extra_okA (e : Account) (s : String)
    (h : render_credentials_extra e = Except.ok s) : okA s.data = true := by
  unfold render_credentials_extra at h
  cases hu : e.uris with
  | nil =>
    rw [hu] at h
    by_cases ht : truthy e.totp = true
    · cases hesc : pyEscapeJ e.totp with
      | error err =>
        simp only [ht, if_true, hesc, errBind, okBind, pure_eq_ok] at h
        exact Except.noConfusion h
      | ok t =>
        simp only [ht, if_true, hesc, okBind, pure_eq_ok] at h
        have hs : s = pyJoin "\n" ["<span>2FA: " ++ t ++ "</span>"] := by
          simpa using h.symm
        rw [hs]
        show okA ("<span>2FA: " ++ t ++ "</span>").data = true
        exact okA_totp_bit t (pyEscapeJ_no_lt e.totp t hesc)
    · have ht' : truthy e.totp = false := by simpa using ht
      simp only [ht', if_false, okBind, pure_eq_ok] at h
      have hs : s = pyJoin "\n" [] := by simpa using h.symm
      rw [hs]
      decide
  | cons u us =>
    rw [hu] at h
    cases hesc : pyEscapeJ u with
    | error err =>
      simp only [hesc, errBind, okBind, pure_eq_ok] at h
      exact Except.noConfusion h
    | ok p =>
      by_cases ht : truthy e.totp = true
      · cases hesc2 : pyEscapeJ e.totp with
        | error err =>
          simp only [ht, if_true, hesc, hesc2, errBind, okBind, pure_eq_ok] at h
          exact Except.noConfusion h
        | ok t =>
          simp only [ht, if_true, hesc, hesc2, okBind, pure_eq_ok] at h
          have hs : s = pyJoin "\n" ["<span>URL: " ++ p ++ "</span>",
              "<span>2FA: " ++ t ++ "</span>"] := by
            simpa using h.symm
          rw [hs]
          show okA ("<span>URL: " ++ p ++ "</span>" ++ "\n" ++
            ("<span>2FA: " ++ t ++ "</span>")).data = true
          rw [String.data_append, String.data_append]
          refine okA_append _ _ (okA_append _ _ ?_ (by decide)) ?_
          · exact okA_url_bit p (pyEscapeJ_no_lt u p hesc)
          · exact okA_totp_bit t (pyEscapeJ_no_lt e.totp t hesc2)
      · have ht' : truthy e.totp = false := by simpa using ht
        simp only [ht', if_false, hesc, okBind, pure_eq_ok] at h
        have hs : s = pyJoin "\n" ["<span>URL: " ++ p ++ "</span>"] := by
          simpa using h.symm
        rw [hs]
        show okA ("<span>URL: " ++ p ++ "</span>").data = true
        exact okA_url_bit p (pyEscapeJ_no_lt u p hesc)

theorem okA_cred_value (x : String) (hx : '<' ∉ x.data) :
    okA ("    <span class=\"credential-value\">" ++ x ++ "</span>").data = true := by
  rw [String.data_append, String.data_append]
  exact okA_append _ _ (okA_append _ _ (by decide) (noLt_okA _ hx)) (by decide)

theorem render_credentials_section_okA (e : Account) (s : String)
    (h : render_credentials_section e = Except.ok s) : okA s.data = true := by
  unfold render_credentials_section at h
  cases hu : pyEscapeJ (orJ e.username "-") with
  | error err =>
    simp only [hu, errBind] at h
    exact Except.noConfusion h
  | ok username =>
    cases hp : pyEscapeJ (orJ e.password "-") with
    | error err =>
      simp only [hu, hp, okBind, errBind] at h
      exact Except.noConfusion h
    | ok password =>
      cases hx : render_credentials_extra e with
      | error err =>
        simp only [hu, hp, hx, okBind, errBind] at h
        exact Except.noConfusion h
      | ok extras =>
        have hex : okA extras.data = true :=
          render_credentials_extra_okA e extras hx
        simp only [hu, hp, hx, okBind, pure_eq_ok] at h
        have hextra : ∀ y : String,
            y = (if (extras != "") = true then
              "<div class=\"credentials-extra\">" ++ extras ++ "</div>"
              else "") → okA y.data = true := by
          intro y hy
          by_cases hne : (extras != "") = true
          · rw [if_pos hne] at hy
            rw [hy, String.data_append, String.data_append]
            exact okA_append _ _ (okA_append _ _ (by decide) hex) (by decide)
          · rw [if_neg hne] at hy
            rw [hy]
            rfl
        have hs : s = pyJoin "\n" [
            "<div class=\"credentials\">",
            "  <div class=\"credential-block credential-block--user\">",
            "    <span class=\"credential-label\">Username / Email</span>",
            "    <span class=\"credential-value\">" ++ username ++ "</span>",
            "  </div>",
            "  <div class=\"credential-block credential-block--password\">",
            "    <span class=\"credential-label\">Password</span>",
            "    <span class=\"credential-value\">" ++ password ++ "</span>",
            "  </div>",
            "  " ++ (if (extras != "") = true then
              "<div class=\"credentials-extra\">" ++ extras ++ "</div>"
              else ""),
            "</div>"] := by
          simpa using h.symm
        rw [hs]
        apply okA_pyJoin _ (by decide)
        intro b hb
        simp only [List.mem_cons, List.not_mem_nil, or_false] at hb
        rcases hb with hb | hb | hb | hb | hb | hb | hb | hb | hb | hb | hb <;>
          subst hb
        · decide
        · decide
        · decide
        · exact okA_cred_value username (pyEscapeJ_no_lt _ _ hu)
        · decide
        · decide
        · decide
        · exact okA_cred_value password (pyEscapeJ_no_lt _ _ hp)
        · decide
        · rw [String.data_append]
          exact okA_append _ _ (by decide) (hextra _ rfl)
        · decide

theorem buildRow_okA (entry : Account) (s : String)
    (h : buildRow entry = Except.ok s) : okA s.data = true := by
  unfold buildRow at h
  cases hc : render_credentials_section entry with
  | error err =>
    simp only [hc, errBind] at h
    exact Except.noConfusion h
  | ok credential_block =>
    have hcb : okA credential_block.data = true :=
      render_credentials_section_okA entry credential_block hc
    simp only [hc, okBind, pure_eq_ok] at h
    have hs : s = pyJoin "\n" [
        "<tr>",
        "  <td><div class=\"entry-name\">" ++
          escape (if (entry.name != "") = true then entry.name
            else "(untitled)") ++ "</div>" ++ render_meta entry ++ "</td>",
        "  <td>" ++ credential_block ++ "</td>",
        "</tr>"] := by
      simpa using h.symm
    rw [hs]
    apply okA_pyJoin _ (by decide)
    intro b hb
    simp only [List.mem_cons, List.not_mem_nil, or_false] at hb
    rcases hb with hb | hb | hb | hb <;> subst hb
    · decide
    · rw [String.data_append, String.data_append, String.data_append,
        String.data_append]
      refine okA_append _ _ (okA_append _ _ (okA_append _ _ (okA_append _ _
        (by decide) ?_) (by decide)) (render_meta_okA entry)) (by decide)
      exact noLt_okA _ (escape_no_specials _).1
    · rw [String.data_append, String.data_append]
      exact okA_append _ _ (okA_append _ _ (by decide) hcb) (by decide)
    · decide

theorem mapM_mem {α β : Type} (f : α → Except PyErr β) (P : β → Prop)
    (hP : ∀ x y, f x = Except.ok y → P y) :
    ∀ (l : List α) (ys : List β), l.mapM f = Except.ok ys → ∀ y ∈ ys, P y := by
  intro l
  induction l with
  | nil =>
    intro ys h y hy
    have : ys = [] := by
      have h' : (Except.ok [] : Except PyErr (List β)) = Except.ok ys := h
      injection h' with h''
      exact h''.symm
    subst this
    simp at hy
  | cons a l ih =>
    intro ys h y hy
    rw [List.mapM_cons] at h
    cases hfa : f a with
    | error err =>
      rw [hfa, errBind] at h
      exact Except.noConfusion h
    | ok b =>
      rw [hfa, okBind] at h
      cases hrest : l.mapM f with
      | error err =>
        rw [hrest, errBind] at h
        exact Except.noConfusion h
      | ok bs =>
        rw [hrest, okBind, pure_eq_ok] at h
        injection h with h'
        subst h'
        rcases List.mem_cons.mp hy with he | hin
        · exact he ▸ hP a b hfa
        · exact ih bs hrest y hin

theorem build_rows_okA (accounts : List Account) (s : String)
    (h : build_rows accounts = Except.ok s) : okA s.data = true := by
  unfold build_rows at h
  cases hm : accounts.mapM buildRow with
  | error err =>
    rw [hm, errBind] at h
    exact Except.noConfusion h
  | ok parts =>
    rw [hm, okBind, pure_eq_ok] at h
    injection h with h'
    subst h'
    apply okA_pyJoin _ (by decide)
    exact mapM_mem buildRow (fun p => okA p.data = true)
      (fun x y hxy => buildRow_okA x y hxy) accounts parts hm

theorem pyReplaceS_data (s pat rep : String) :
    (pyReplaceS s pat rep).data = pyReplace pat.data rep.data s.data := rfl

theorem render_html_okA (accounts : List Account)
    (title generated style_href doc : String)
    (hgen : '<' ∉ generated.data) (hsh : '<' ∉ style_href.data)
    (h : render_html layout_template accounts title generated style_href =
      Except.ok doc) :
    okA doc.data = true := by
  unfold render_html at h
  cases hr : build_rows accounts with
  | error err =>
    rw [hr, errBind] at h
    exact Except.noConfusion h
  | ok rows =>
    rw [hr, okBind, pure_eq_ok] at h
    injection h with h'
    subst h'
    simp only [renderReplacements, List.foldl_cons, List.foldl_nil]
    rw [pyReplaceS_data, pyReplaceS_data, pyReplaceS_data, pyReplaceS_data,
      pyReplaceS_data]
    apply okA_pyReplace _ _ (by decide) (noLt_okA _ hsh) _ _ (Nat.le_refl _)
    apply okA_pyReplace _ _ (by decide) ?hrows _ _ (Nat.le_refl _)
    case hrows =>
      by_cases hne : (rows != "") = true
      · rw [if_pos hne]
        exact build_rows_okA accounts rows hr
      · rw [if_neg hne]
        decide
    apply okA_pyReplace _ _ (by decide) (noLt_okA _ (natStr_no_lt _)) _ _
      (Nat.le_refl _)
    apply okA_pyReplace _ _ (by decide) (noLt_okA _ hgen) _ _ (Nat.le_refl _)
    apply okA_pyReplace _ _ (by decide)
      (noLt_okA _ (escape_no_specials title).1) _ _ (Nat.le_refl _)
    decide

/-- C1: every user-controlled field value is inserted only through
`html.escape`, whose output contains no raw `<`, `>`, double or single
quote; consequently, for every account list and title — in particular for
names such as `<script>` — the rendered document contains no `<sc`
character sequence at all, hence never a raw `<script>` tag (the
`generated` timestamp and the stylesheet URI, the two non-user inputs
spliced in verbatim, are assumed free of `<`). -/
theorem render_html_no_script_injection :
    (∀ s : String, '<' ∉ (escape s).data ∧ '>' ∉ (escape s).data ∧
      '"' ∉ (escape s).data ∧ '\'' ∉ (escape s).data) ∧
    (∀ (accounts : List Account) (title generated style_href doc : String),
      '<' ∉ generated.data → '<' ∉ style_href.data →
      render_html layout_template accounts title generated style_href =
        Except.ok doc →
      ¬ (['<', 's', 'c'] <:+: doc.data) ∧
      ¬ ("<script>".data <:+: doc.data)) := by
  refine ⟨escape_no_specials, ?_⟩
  intro accounts title generated style_href doc hgen hsh h
  have hok := render_html_okA accounts title generated style_href doc hgen hsh h
  have hnsc := okA_no_sc _ hok
  refine ⟨hnsc, ?_⟩
  intro hscript
  apply hnsc
  have hpre : ['<', 's', 'c'] <+: "<script>".data := by decide
  exact hpre.isInfix.trans hscript


/-- An account whose name, username and password attempt markup injection. -/
def scriptAcc : Account :=
  { name := "<script>x</script>"
    type := "Login"
    folder := "No folder"
    favorite := false
    username := Json.str "u<1>"
    password := Json.str "p&'"
    totp := Json.str ""
    uris := []
    notes := Json.str ""
    last_modified := ""
    created := ""
    fields := [] }

/-- The document rendered for `scriptAcc`: every injection attempt appears
escaped. -/
def scriptDoc : String :=
  "<html><head><title>T</title><link rel=\"stylesheet\" href=\"s.css\">" ++
  "</head><body><p>Generated g | 1 entries</p><table><tbody>" ++
  "<tr>\n  <td><div class=\"entry-name\">&lt;script&gt;x&lt;/script&gt;</div>" ++
  "<div class=\"entry-meta\"><span class=\"tag\">Login</span></div></td>\n" ++
  "  <td><div class=\"credentials\">\n" ++
  "  <div class=\"credential-block credential-block--user\">\n" ++
  "    <span class=\"credential-label\">Username / Email</span>\n" ++
  "    <span class=\"credential-value\">u&lt;1&gt;</span>\n" ++
  "  </div>\n" ++
  "  <div class=\"credential-block credential-block--password\">\n" ++
  "    <span class=\"credential-label\">Password</span>\n" ++
  "    <span class=\"credential-value\">p&amp;&#x27;</span>\n" ++
  "  </div>\n  \n" ++
  "</div></td>\n</tr></tbody></table></body></html>"

/-- Witness for C1: the injection account renders to a document with no
`<sc` sequence and no raw `<script>` tag. -/
theorem render_html_no_script_injection_witness :
    ¬ (['<', 's', 'c'] <:+: scriptDoc.data) ∧
    ¬ ("<script>".data <:+: scriptDoc.data) :=
  render_html_no_script_injection.2 [scriptAcc] "T" "g" "s.css" scriptDoc
    (by decide) (by decide) (by rfl)
